import Mathlib

/-!
Verification of the filesystem-backed object store engine
(minio, files `config-v4.go` and `bucket-policy-handlers.go`),
as a shallow embedding in Lean 4.

Bytes are modelled as `Nat` values reduced `% 256`; 32-bit machine
words as `Nat` values reduced `% 2^32`.
-/

namespace Minio

/-- 32-bit truncation. -/
def w32 (n : Nat) : Nat := n % 4294967296

/-- 32-bit bitwise complement. -/
def not32 (n : Nat) : Nat := Nat.xor n 4294967295

/-- 32-bit left rotation by `k` (0 ≤ k < 32). -/
def rotl32 (n k : Nat) : Nat :=
  w32 (Nat.lor (w32 (Nat.shiftLeft n k)) (Nat.shiftRight n (32 - k)))

/-- Lowercase hex digit for a value < 16 (stdlib `encoding/hex` alphabet). -/
def hexDigitChar (n : Nat) : Char :=
  if n < 10 then Char.ofNat (48 + n) else Char.ofNat (97 + (n - 10))

/-- Two lowercase hex digits of one byte. -/
def hexByte (b : Nat) : List Char :=
  [hexDigitChar ((b % 256) / 16), hexDigitChar (b % 16)]

/-- Go `hex.EncodeToString`: lowercase hex of a byte sequence. -/
def hexEncode (bs : List Nat) : String :=
  String.mk (bs.flatMap hexByte)

/-- Value of one hex digit; accepts both cases like Go `encoding/hex`. -/
def hexDigitVal (c : Char) : Option Nat :=
  if 48 ≤ c.toNat ∧ c.toNat ≤ 57 then some (c.toNat - 48)
  else if 97 ≤ c.toNat ∧ c.toNat ≤ 102 then some (c.toNat - 87)
  else if 65 ≤ c.toNat ∧ c.toNat ≤ 70 then some (c.toNat - 55)
  else none

/-- Go `hex.DecodeString` on a character list: fails on odd length or a
non-hex character. -/
def hexDecodeList : List Char → Option (List Nat)
  | [] => some []
  | [_] => none
  | c1 :: c2 :: rest =>
    match hexDigitVal c1, hexDigitVal c2, hexDecodeList rest with
    | some h, some l, some bs => some ((16 * h + l) :: bs)
    | _, _, _ => none

/-- Go `hex.DecodeString`. -/
def hexDecode (s : String) : Option (List Nat) :=
  hexDecodeList s.data

/-! ### MD5 (stdlib `crypto/md5`, RFC 1321) -/

/-- MD5 round constants `K[i] = floor(|sin(i+1)| * 2^32)`. -/
def md5K : List Nat :=
  [0xd76aa478, 0xe8c7b756, 0x242070db, 0xc1bdceee,
   0xf57c0faf, 0x4787c62a, 0xa8304613, 0xfd469501,
   0x698098d8, 0x8b44f7af, 0xffff5bb1, 0x895cd7be,
   0x6b901122, 0xfd987193, 0xa679438e, 0x49b40821,
   0xf61e2562, 0xc040b340, 0x265e5a51, 0xe9b6c7aa,
   0xd62f105d, 0x02441453, 0xd8a1e681, 0xe7d3fbc8,
   0x21e1cde6, 0xc33707d6, 0xf4d50d87, 0x455a14ed,
   0xa9e3e905, 0xfcefa3f8, 0x676f02d9, 0x8d2a4c8a,
   0xfffa3942, 0x8771f681, 0x6d9d6122, 0xfde5380c,
   0xa4beea44, 0x4bdecfa9, 0xf6bb4b60, 0xbebfbc70,
   0x289b7ec6, 0xeaa127fa, 0xd4ef3085, 0x04881d05,
   0xd9d4d039, 0xe6db99e5, 0x1fa27cf8, 0xc4ac5665,
   0xf4292244, 0x432aff97, 0xab9423a7, 0xfc93a039,
   0x655b59c3, 0x8f0ccc92, 0xffeff47d, 0x85845dd1,
   0x6fa87e4f, 0xfe2ce6e0, 0xa3014314, 0x4e0811a1,
   0xf7537e82, 0xbd3af235, 0x2ad7d2bb, 0xeb86d391]

/-- MD5 per-round left-rotation amounts. -/
def md5S : List Nat :=
  [7, 12, 17, 22, 7, 12, 17, 22, 7, 12, 17, 22, 7, 12, 17, 22,
   5, 9, 14, 20, 5, 9, 14, 20, 5, 9, 14, 20, 5, 9, 14, 20,
   4, 11, 16, 23, 4, 11, 16, 23, 4, 11, 16, 23, 4, 11, 16, 23,
   6, 10, 15, 21, 6, 10, 15, 21, 6, 10, 15, 21, 6, 10, 15, 21]

/-- Split a little-endian byte sequence into 32-bit words (length must be a
multiple of 4). -/
def leWords : List Nat → List Nat
  | b0 :: b1 :: b2 :: b3 :: rest =>
    (b0 % 256 + 256 * (b1 % 256) + 65536 * (b2 % 256) + 16777216 * (b3 % 256))
      :: leWords rest
  | _ => []

/-- Little-endian bytes of a value, `k` bytes wide. -/
def leBytes (k : Nat) (n : Nat) : List Nat :=
  match k with
  | 0 => []
  | k + 1 => n % 256 :: leBytes k (n / 256)

/-- One MD5 round: state `(a, b, c, d)`, message words `m`, round index `i`. -/
def md5Round (m : List Nat) (st : Nat × Nat × Nat × Nat) (i : Nat) :
    Nat × Nat × Nat × Nat :=
  let a := st.1; let b := st.2.1; let c := st.2.2.1; let d := st.2.2.2
  let f :=
    if i < 16 then Nat.lor (Nat.land b c) (Nat.land (not32 b) d)
    else if i < 32 then Nat.lor (Nat.land d b) (Nat.land (not32 d) c)
    else if i < 48 then Nat.xor b (Nat.xor c d)
    else Nat.xor c (Nat.lor b (not32 d))
  let g :=
    if i < 16 then i
    else if i < 32 then (5 * i + 1) % 16
    else if i < 48 then (3 * i + 5) % 16
    else (7 * i) % 16
  let f' := w32 (f + a + md5K.getD i 0 + m.getD g 0)
  (d, w32 (b + rotl32 f' (md5S.getD i 0)), b, c)

/-- MD5 compression of one 64-byte chunk (as 16 words) into the state. -/
def md5Chunk (st : Nat × Nat × Nat × Nat) (m : List Nat) :
    Nat × Nat × Nat × Nat :=
  let r := (List.range 64).foldl (md5Round m) st
  (w32 (st.1 + r.1), w32 (st.2.1 + r.2.1), w32 (st.2.2.1 + r.2.2.1),
   w32 (st.2.2.2 + r.2.2.2))

/-- Split a byte list into 64-byte chunks of words and fold the compression.
The fuel argument bounds the number of chunks; callers pass the list length,
which suffices since every step consumes 64 bytes. -/
def md5ChunksF : Nat → (Nat × Nat × Nat × Nat) → List Nat →
    Nat × Nat × Nat × Nat
  | 0, st, _ => st
  | n + 1, st, bs =>
    if bs.length < 64 then st
    else md5ChunksF n (md5Chunk st (leWords (bs.take 64))) (bs.drop 64)

/-- MD5 padding: `0x80`, zeros to 56 mod 64, then the 64-bit little-endian
bit length. -/
def md5Pad (bs : List Nat) : List Nat :=
  let padLen := (55 + 64 - bs.length % 64) % 64 + 1
  bs ++ (128 :: List.replicate (padLen - 1) 0) ++
    leBytes 8 ((bs.length * 8) % 18446744073709551616)

/-- MD5 digest of a byte sequence, as 16 bytes. -/
def md5Bytes (bs : List Nat) : List Nat :=
  let p := md5Pad bs
  let st := md5ChunksF p.length (0x67452301, 0xefcdab89, 0x98badcfe, 0x10325476) p
  leBytes 4 st.1 ++ leBytes 4 st.2.1 ++ leBytes 4 st.2.2.1 ++
    leBytes 4 st.2.2.2

/-- UTF-8 encoding of one character (code point), as bytes. -/
def utf8Char (n : Nat) : List Nat :=
  if n < 128 then [n]
  else if n < 2048 then [192 + n / 64, 128 + n % 64]
  else if n < 65536 then [224 + n / 4096, 128 + (n / 64) % 64, 128 + n % 64]
  else [240 + n / 262144, 128 + (n / 4096) % 64, 128 + (n / 64) % 64,
        128 + n % 64]

/-- Byte sequence of a string (UTF-8). -/
def strBytes (s : String) : List Nat :=
  s.data.flatMap (fun c => utf8Char c.toNat)

/-! ### Regular expressions (stdlib `regexp`)

The source stores policy actions and resources as regex pattern strings and
matches them with `regexp.MatchString`.  The embedding carries the patterns
in parsed form, as an abstract syntax tree, and gives Go's matching
semantics: `MatchString(pattern, s)` reports whether `s` CONTAINS any match
of the pattern, i.e. it is unanchored. -/

inductive Regex where
  | fail : Regex
  | epsilon : Regex
  | chr (c : Char) : Regex
  | dot : Regex
  | cat (a b : Regex) : Regex
  | alt (a b : Regex) : Regex
  | star (a : Regex) : Regex
deriving DecidableEq

/-- Does the regex accept the empty string? -/
def Regex.nullable : Regex → Bool
  | .fail => false
  | .epsilon => true
  | .chr _ => false
  | .dot => false
  | .cat a b => a.nullable && b.nullable
  | .alt a b => a.nullable || b.nullable
  | .star _ => true

/-- Brzozowski derivative of a regex with respect to a character. -/
def Regex.deriv : Regex → Char → Regex
  | .fail, _ => .fail
  | .epsilon, _ => .fail
  | .chr c, x => if c = x then .epsilon else .fail
  | .dot, _ => .epsilon
  | .cat a b, x =>
    if a.nullable then .alt (.cat (a.deriv x) b) (b.deriv x)
    else .cat (a.deriv x) b
  | .alt a b, x => .alt (a.deriv x) (b.deriv x)
  | .star a, x => .cat (a.deriv x) (.star a)

/-- Anchored acceptance: the regex matches the whole character list. -/
def Regex.accepts : Regex → List Char → Bool
  | r, [] => r.nullable
  | r, c :: cs => (r.deriv c).accepts cs

/-- Does some (possibly empty) leading segment of the list match the regex? -/
def Regex.matchesPre : Regex → List Char → Bool
  | r, [] => r.nullable
  | r, c :: cs => r.nullable || (r.deriv c).matchesPre cs

/-- Unanchored match on a character list: some substring matches. -/
def Regex.matchesIn : Regex → List Char → Bool
  | r, [] => r.nullable
  | r, c :: cs => r.matchesPre (c :: cs) || r.matchesIn cs

/-- Go `regexp.MatchString(pattern, s)`: unanchored match — reports whether
`s` contains any match of the pattern. -/
def regexpMatchString (pat : Regex) (s : String) : Bool :=
  pat.matchesIn s.data

/-- Anchored full match of a pattern against the whole string (this is the
matching mode the spec describes, not the one `regexp.MatchString` has). -/
def regexFullMatch (pat : Regex) (s : String) : Bool :=
  pat.accepts s.data

/-- Literal regex matching exactly the given string. -/
def strRegex (s : String) : Regex :=
  s.data.foldr (fun c r => .cat (.chr c) r) .epsilon

/-! ### Bucket policy evaluator (`bucket-policy-handlers.go`)

Go string-keyed maps are embedded as association lists; indexing a Go map
returns the zero value `""` for an absent key, which `mapGet` mirrors. -/

/-- Go map indexing `m[k]` for `map[string]string`: `""` when absent. -/
def mapGet (m : List (String × String)) (k : String) : String :=
  (m.lookup k).getD ""

/-- A bucket policy statement (struct `policyStatement`; its declaration
lives in the policy parser next to the handlers — fields per spec §3:
`{Sid, Effect, Principal, Actions, Resources, Conditions}`; only the fields
the evaluator reads are carried).  Actions and resources are regex patterns,
held in parsed form; conditions map an operator name to a key/value map. -/
structure policyStatement where
  effect : String
  actions : List Regex
  resources : List Regex
  conditions : List (String × List (String × String))

/-- `bucketPolicyActionMatch`: the action matches some statement action
pattern (`regexp.MatchString`). -/
def bucketPolicyActionMatch (action : String) (statement : policyStatement) :
    Bool :=
  statement.actions.any (fun pat => regexpMatchString pat action)

/-- Go `strings.TrimPrefix(s, "/")`: drop one leading '/' when present. -/
def trimLeadSlash (s : String) : String :=
  match s.data with
  | '/' :: rest => String.mk rest
  | _ => s

/-- `bucketPolicyResourceMatch`: the resource, after stripping a leading
'/', matches some statement resource pattern. -/
def bucketPolicyResourceMatch (resource : String)
    (statement : policyStatement) : Bool :=
  statement.resources.any
    (fun pat => regexpMatchString pat (trimLeadSlash resource))

/-- Loop body of `bucketPolicyConditionMatch`: iterate the statement's
condition operators, failing fast exactly as the source's `break` does. -/
def conditionLoop (conditions : List (String × String)) :
    List (String × List (String × String)) → Bool
  | [] => true
  | (condition, conditionKeys) :: rest =>
    if condition = "StringEquals" then
      if mapGet conditionKeys "s3:prefix" ≠ mapGet conditions "prefix" then
        false
      else if mapGet conditionKeys "s3:max-keys" ≠
          mapGet conditions "max-keys" then false
      else conditionLoop conditions rest
    else if condition = "StringNotEquals" then
      if mapGet conditionKeys "s3:prefix" = mapGet conditions "prefix" then
        false
      else if mapGet conditionKeys "s3:max-keys" =
          mapGet conditions "max-keys" then false
      else conditionLoop conditions rest
    else conditionLoop conditions rest

/-- `bucketPolicyConditionMatch`: verify the request's condition values
against the statement.  Only `StringEquals` and `StringNotEquals` are
inspected; each compares the condition's `s3:prefix` and `s3:max-keys`
entries against the request's `prefix` and `max-keys` entries. -/
def bucketPolicyConditionMatch (conditions : List (String × String))
    (statement : policyStatement) : Bool :=
  conditionLoop conditions statement.conditions

/-- `bucketPolicyMatchStatement`: action, resource and conditions all
match. -/
def bucketPolicyMatchStatement (action resource : String)
    (conditions : List (String × String)) (statement : policyStatement) :
    Bool :=
  bucketPolicyActionMatch action statement &&
    (bucketPolicyResourceMatch resource statement &&
      bucketPolicyConditionMatch conditions statement)

/-- `bucketPolicyEvalStatements`: scan the statements in order; the first
matching statement decides (`Effect == "Allow"`); none matching denies. -/
def bucketPolicyEvalStatements (action resource : String)
    (conditions : List (String × String)) :
    List policyStatement → Bool
  | [] => false
  | statement :: rest =>
    if bucketPolicyMatchStatement action resource conditions statement then
      statement.effect = "Allow"
    else bucketPolicyEvalStatements action resource conditions rest

/-! ### Claim-side definitions for the policy evaluator

These restate the spec's wording of statement matching and evaluation so
they can be compared against the evaluator embedded from the source. -/

/-- Statement matching as the spec words it: actions and resources are
matched as regex FULL match (the resource after stripping a leading '/'),
and the conditions match. -/
def statementFullMatches (action resource : String)
    (conditions : List (String × String)) (statement : policyStatement) :
    Bool :=
  statement.actions.any (fun pat => regexFullMatch pat action) &&
    (statement.resources.any
      (fun pat => regexFullMatch pat (trimLeadSlash resource)) &&
      bucketPolicyConditionMatch conditions statement)

/-- Evaluation as the spec words it: the first statement whose actions,
resources (full-match) and conditions all match decides by its effect;
no match denies. -/
def specEvalFullMatch (action resource : String)
    (conditions : List (String × String)) (statements : List policyStatement) :
    Bool :=
  match statements.find? (statementFullMatches action resource conditions) with
  | some statement => statement.effect = "Allow"
  | none => false

/-- Evaluation as amended: identical, except that action and resource
patterns are matched the way `regexp.MatchString` matches — unanchored. -/
def specEvalFirstMatch (action resource : String)
    (conditions : List (String × String)) (statements : List policyStatement) :
    Bool :=
  match statements.find?
      (bucketPolicyMatchStatement action resource conditions) with
  | some statement => statement.effect = "Allow"
  | none => false

/-- Condition matching as the claim words it: `StringEquals` requires every
key listed under it to equal the request's corresponding key value
(`s3:prefix` corresponds to the request's `prefix`, `s3:max-keys` to
`max-keys`); `StringNotEquals` requires inequality for every listed key. -/
def specConditionKey (k : String) : String :=
  if k = "s3:prefix" then "prefix"
  else if k = "s3:max-keys" then "max-keys"
  else k

/-- Condition matching as the claim words it (see `specConditionKey`). -/
def specConditionMatch (conditions : List (String × String))
    (statement : policyStatement) : Bool :=
  statement.conditions.all (fun oc =>
    if oc.1 = "StringEquals" then
      oc.2.all (fun kv => kv.2 = mapGet conditions (specConditionKey kv.1))
    else if oc.1 = "StringNotEquals" then
      oc.2.all (fun kv => ¬ kv.2 = mapGet conditions (specConditionKey kv.1))
    else true)

/-- Condition matching as amended: both of the two supported operators
always compare exactly the two keys `s3:prefix` and `s3:max-keys` (reading
`""` for an absent key), and operators other than `StringEquals` and
`StringNotEquals` are ignored. -/
def amendedConditionMatch (conditions : List (String × String))
    (statement : policyStatement) : Bool :=
  statement.conditions.all (fun oc =>
    if oc.1 = "StringEquals" then
      (mapGet oc.2 "s3:prefix" = mapGet conditions "prefix") &&
        (mapGet oc.2 "s3:max-keys" = mapGet conditions "max-keys")
    else if oc.1 = "StringNotEquals" then
      (¬ mapGet oc.2 "s3:prefix" = mapGet conditions "prefix") &&
        (¬ mapGet oc.2 "s3:max-keys" = mapGet conditions "max-keys")
    else true)

/-! ### PutBucketPolicy handler, pre-parse size check
(`bucket-policy-handlers.go`, `PutBucketPolicyHandler`) -/

/-- Client-visible error codes of the handler fragment. -/
inductive APIErrorCode where
  | errMissingContentLength : APIErrorCode
  | errEntityTooLarge : APIErrorCode
deriving DecidableEq

/-- Maximum supported access policy size (source constant
`maxAccessPolicySize = 20 * 1024 * 1024`; its own comment says 20KiB). -/
def maxAccessPolicySize : Nat := 20 * 1024 * 1024

/-- The Content-Length checks `PutBucketPolicyHandler` runs before reading
and parsing the policy document: `some e` rejects the request with `e`,
`none` proceeds to read (limited to `maxAccessPolicySize`) and parse. -/
def putBucketPolicySizeCheck (transferEncoding : List String)
    (contentLength : Int) : Option APIErrorCode :=
  if transferEncoding.contains "chunked" then none
  else if contentLength = -1 ∨ contentLength = 0 then
    some .errMissingContentLength
  else if contentLength > (maxAccessPolicySize : Int) then
    some .errEntityTooLarge
  else none

/-! ### Filesystem model

The engine's effects are embedded as explicit state passing over a snapshot
of the directory tree: an association list from file paths (strings, '/'
separated, as built by `filepath.Join`) to file records, plus the set of
directories, plus a clock supplying modification times.  Association-list
lookup takes the first match, so shadowed duplicates behave like the single
visible entry. -/

/-- Errors returned by the embedded operations (the source's typed error
values plus the `os`/`io` errors it propagates). -/
inductive GoError where
  | eof : GoError
  | readError : GoError
  | enoent : GoError
  | enotempty : GoError
  | badDigest (expectedMD5 calculatedMD5 : String) : GoError
  | bucketNameInvalid (bucket : String) : GoError
  | bucketNotFound (bucket : String) : GoError
  | objectNameInvalid (object : String) : GoError
  | invalidUploadID (uploadID : String) : GoError
  | invalidPart : GoError
  | rootPathFull (path : String) : GoError
  | goError (msg : String) : GoError
deriving DecidableEq

/-- Decidable equality for results, for evaluating runs on concrete
inputs. -/
instance {ε α : Type} [DecidableEq ε] [DecidableEq α] :
    DecidableEq (Except ε α) := fun x y =>
  match x, y with
  | .ok a, .ok b =>
    if h : a = b then isTrue (by rw [h])
    else isFalse (by intro hc; cases hc; exact h rfl)
  | .error a, .error b =>
    if h : a = b then isTrue (by rw [h])
    else isFalse (by intro hc; cases hc; exact h rfl)
  | .ok _, .error _ => isFalse (by intro hc; cases hc)
  | .error _, .ok _ => isFalse (by intro hc; cases hc)

/-- A regular file: content bytes and modification time. -/
structure FileRec where
  content : List Nat
  mtime : Nat
deriving DecidableEq

/-- Filesystem snapshot. -/
structure FsState where
  files : List (String × FileRec)
  dirs : List String
  now : Nat
deriving DecidableEq

/-- Read a file (first association wins). -/
def lookupFile (s : FsState) (p : String) : Option FileRec :=
  s.files.lookup p

/-- Create or truncate-and-write a file at the current time. -/
def setFile (s : FsState) (p : String) (content : List Nat) : FsState :=
  { s with files := (p, ⟨content, s.now⟩) ::
      s.files.filter (fun e => !(e.1 == p)) }

/-- Drop a file entry. -/
def removeFileEntry (s : FsState) (p : String) : FsState :=
  { s with files := s.files.filter (fun e => !(e.1 == p)) }

/-- Re-create a file with a given record (for rename, which keeps the
modification time). -/
def setFileRec (s : FsState) (p : String) (r : FileRec) : FsState :=
  { s with files := (p, r) :: s.files.filter (fun e => !(e.1 == p)) }

/-- Drop a directory entry. -/
def removeDirEntry (s : FsState) (d : String) : FsState :=
  { s with dirs := s.dirs.filter (fun x => !(x == d)) }

/-- Go `filepath.Join` of two cleaned components. -/
def pathJoin (a b : String) : String := a ++ "/" ++ b

/-- Go `filepath.Join` folded over components. -/
def joinAll (root : String) (parts : List String) : String :=
  parts.foldl pathJoin root

/-- Go `strings.Split` on a one-character separator, over characters. -/
def splitOnChar (sep : Char) : List Char → List (List Char)
  | [] => [[]]
  | c :: rest =>
    let r := splitOnChar sep rest
    if c = sep then [] :: r
    else
      match r with
      | h :: t => (c :: h) :: t
      | [] => [[c]]

/-- Components of a path ('/'-separated). -/
def splitPath (p : String) : List String :=
  (splitOnChar '/' p.data).map String.mk

/-- Join components back with '/'. -/
def joinComps : List String → String
  | [] => ""
  | [x] => x
  | x :: xs => x ++ "/" ++ joinComps xs

/-- Go string comparison is byte-wise; on valid UTF-8 that coincides with
code-point comparison, implemented here over the character lists. -/
def charListLt : List Char → List Char → Bool
  | [], [] => false
  | [], _ :: _ => true
  | _ :: _, [] => false
  | a :: as, b :: bs =>
    if a.toNat < b.toNat then true
    else if b.toNat < a.toNat then false
    else charListLt as bs

/-- Go `a < b` on strings. -/
def strLt (a b : String) : Bool := charListLt a.data b.data

/-- Go `strings.HasPrefix`. -/
def strStartsWith (s pre : String) : Bool := pre.data.isPrefixOf s.data

/-- Go `filepath.Dir`: the path without its final element ("." when there
is no separator). -/
def pathDir (p : String) : String :=
  let parts := splitPath p
  if parts.length ≤ 1 then "." else joinComps parts.dropLast

/-- Final element of a path. -/
def baseName (p : String) : String :=
  (splitPath p).getLastD p

/-- Does the directory have any direct child (file or directory)? -/
def dirHasChild (s : FsState) (d : String) : Bool :=
  s.files.any (fun e => pathDir e.1 == d) || s.dirs.any (fun x => pathDir x == d)

/-- Modelled from the spec: `IsDirEmpty` (§4.2, its implementation lives in
the directory walker next to the embedded files): no entries under the
directory; reading a missing directory is an I/O error. -/
def isDirEmptyE (s : FsState) (d : String) : Except GoError Bool :=
  if s.dirs.contains d then .ok (!dirHasChild s d) else .error .enoent

/-- Go `os.Remove`: removes a file or an empty directory. -/
def osRemove (s : FsState) (p : String) : Except GoError FsState :=
  if (lookupFile s p).isSome then .ok (removeFileEntry s p)
  else if s.dirs.contains p then
    if dirHasChild s p then .error .enotempty
    else .ok (removeDirEntry s p)
  else .error .enoent

/-- Go `os.Rename` on a file (keeps the modification time). -/
def osRename (s : FsState) (oldPath newPath : String) :
    Except GoError FsState :=
  match lookupFile s oldPath with
  | none => .error .enoent
  | some r => .ok (setFileRec (removeFileEntry s oldPath) newPath r)

/-- Go `os.MkdirAll`: create the directory and its missing parents.  The
fuel bounds the parent chain, which `pathDir` strictly shortens. -/
def mkdirChain : Nat → FsState → String → FsState
  | 0, s, _ => s
  | n + 1, s, p =>
    let s' := if s.dirs.contains p then s else { s with dirs := p :: s.dirs }
    mkdirChain n s' (pathDir p)

/-- Go `os.MkdirAll`. -/
def mkdirAll (s : FsState) (p : String) : FsState :=
  mkdirChain p.length s p

/-- `isFileExist` (source): a regular file is present at the path. -/
def isFileExistB (s : FsState) (p : String) : Bool :=
  (lookupFile s p).isSome

/-- `isDirExist` (its implementation lives in the directory walker): the
directory is present. -/
def isDirExistB (s : FsState) (d : String) : Bool :=
  s.dirs.contains d

/-! ### Readers and the safe write pipeline (`safeWriteFile`) -/

/-- A byte stream: the bytes it will yield, and whether it reports a read
error (instead of EOF) once they are exhausted. -/
structure ByteReader where
  bytes : List Nat
  failAfter : Bool
deriving DecidableEq

/-- Go `io.Copy` into the tee: bytes written so far and the terminating
error, if any. -/
def ioCopy (r : ByteReader) : List Nat × Option GoError :=
  (r.bytes, if r.failAfter then some .readError else none)

/-- Go `io.CopyN`: copy exactly `n` bytes, failing (with the stream's error
or EOF) when the stream ends early. -/
def ioCopyN (r : ByteReader) (n : Int) : List Nat × Option GoError :=
  if (r.bytes.length : Int) < n then
    (r.bytes, some (if r.failAfter then .readError else .eof))
  else (r.bytes.take n.toNat, none)

/-- Modelled from the spec: `isMD5SumEqual` (helper defined outside the
embedded files) — §4.1 makes the pipeline fail exactly when
`expectedMD5 ≠ "" ∧ expectedMD5 ≠ computed`, so equality of the two hex
strings. -/
def isMD5SumEqual (expectedMD5Sum actualMD5Sum : String) : Bool :=
  expectedMD5Sum == actualMD5Sum

/-- Modelled from the spec: the temp file `safe.CreateFileWithSuffix`
creates next to the target (§6: suffix `-<random>` in the same directory);
the random component is passed in explicitly. -/
def tempPath (fileName tmpSuffix : String) : String :=
  fileName ++ "-" ++ tmpSuffix

/-- The copy stage of `safeWriteFile`: `io.CopyN` when `size > 0`, plain
`io.Copy` otherwise. -/
def copyPhase (data : ByteReader) (size : Int) : List Nat × Option GoError :=
  if size > 0 then ioCopyN data size else ioCopy data

/-- `safeWriteFile` (source): stream into a sibling temp file while
hashing; on copy error or checksum mismatch close and remove the temp
file; otherwise close, which atomically renames it onto the target.  The
`safe` package's close/remove semantics are modelled from the spec (§4.1,
scoped temp file); the source ignores the error of the final
`safeFile.Close()`, which the model mirrors by keeping the pre-rename
state when the rename fails. -/
def safeWriteFile (s : FsState) (fileName tmpSuffix : String)
    (data : ByteReader) (size : Int) (md5sum : String) :
    Except GoError Unit × FsState :=
  let tmp := tempPath fileName tmpSuffix
  let s0 := setFile s tmp []
  let wr := copyPhase data size
  let s1 := setFile s0 tmp wr.1
  match wr.2 with
  | some e => (.error e, removeFileEntry s1 tmp)
  | none =>
    let dataMd5sum := hexEncode (md5Bytes wr.1)
    if md5sum ≠ "" ∧ isMD5SumEqual md5sum dataMd5sum = false then
      (.error (.badDigest md5sum dataMd5sum), removeFileEntry s1 tmp)
    else
      match osRename s1 tmp fileName with
      | .ok s2 => (.ok (), s2)
      | .error _ => (.ok (), s1)

end Minio

namespace Minio

/-! ### Multipart manager (`config-v4.go`) -/

/-- Source constant. -/
def configDir : String := ".minio"

/-- Source constant. -/
def uploadIDSuffix : String := ".uploadid"

/-- Modelled from the spec: `IsValidBucketName` (§3, its implementation
lives outside the embedded files) — 3–63 chars, lowercase letters, digits,
'.', '-', first and last alphanumeric, no "..", not an IP literal. -/
def isLowerAlnum (c : Char) : Bool :=
  (97 ≤ c.toNat && c.toNat ≤ 122) || (48 ≤ c.toNat && c.toNat ≤ 57)

/-- Consecutive dots somewhere in the name? -/
def hasDotDot : List Char → Bool
  | '.' :: '.' :: _ => true
  | _ :: t => hasDotDot t
  | [] => false

/-- Modelled from the spec: `IsValidBucketName` (§3). -/
def IsValidBucketName (bucket : String) : Bool :=
  let cs := bucket.data
  decide (3 ≤ cs.length) && decide (cs.length ≤ 63) &&
    cs.all (fun c => isLowerAlnum c || c = '.' || c = '-') &&
    (match cs.head? with | some c => isLowerAlnum c | none => false) &&
    (match cs.getLast? with | some c => isLowerAlnum c | none => false) &&
    !(hasDotDot cs) &&
    !(decide ((splitOnChar '.' cs).length = 4) &&
      (splitOnChar '.' cs).all (fun g =>
        !(g.isEmpty) && g.all (fun c => 48 ≤ c.toNat && c.toNat ≤ 57)))

/-- Modelled from the spec: `IsValidObjectName` (§3) — non-empty, at most
1024 UTF-8 bytes, no NUL, no ".." component. -/
def IsValidObjectName (object : String) : Bool :=
  !(object == "") && decide ((strBytes object).length ≤ 1024) &&
    !(object.data.contains (Char.ofNat 0)) &&
    (splitPath object).all (fun comp => !(comp == ".."))

/-- ASCII lowercase of a string. -/
def toLowerStr (s : String) : String :=
  String.mk (s.data.map Char.toLower)

/-- Modelled from the spec: `getActualBucketname` (§3: bucket names are
case-insensitive-unique; the canonical on-disk form is returned) — scan the
root's child directories for a name equal to the bucket up to case. -/
def getActualBucketname (s : FsState) (rootPath bucket : String) : String :=
  match s.dirs.find? (fun d => pathDir d == rootPath &&
      toLowerStr (baseName d) == toLowerStr bucket) with
  | some d => baseName d
  | none => bucket

/-- The filesystem engine's handle: storage root, and the outcome of the
advisory `checkDiskFree` (§5; its floating-point free-space computation is
abstracted to its outcome). -/
structure Filesystem where
  path : String
  diskFull : Bool

/-- `checkDiskFree` (source; see `Filesystem.diskFull`). -/
def checkDiskFree (fs : Filesystem) : Except GoError Unit :=
  if fs.diskFull then .error (.rootPathFull fs.path) else .ok ()

/-- `checkBucketArg` (source): validate the bucket name, canonicalize it,
require its directory to exist. -/
def checkBucketArg (fs : Filesystem) (s : FsState) (bucket : String) :
    Except GoError String :=
  if IsValidBucketName bucket = false then .error (.bucketNameInvalid bucket)
  else
    let bucket' := getActualBucketname s fs.path bucket
    if isDirExistB s (pathJoin fs.path bucket') = false then
      .error (.bucketNotFound bucket')
    else .ok bucket'

/-- `checkMultipartArgs` (source). -/
def checkMultipartArgs (fs : Filesystem) (s : FsState) (bucket object : String) :
    Except GoError String :=
  match checkBucketArg fs s bucket with
  | .error e => .error e
  | .ok bucket' =>
    if IsValidObjectName object = false then
      .error (.objectNameInvalid object)
    else .ok bucket'

/-- `isUploadIDExist` (source): the reservation file
`<root>/.minio/<bucket>/<object>/<uploadID>.uploadid` exists. -/
def isUploadIDExist (fs : Filesystem) (s : FsState)
    (bucket object uploadID : String) : Bool :=
  isFileExistB s (pathJoin (joinAll fs.path [configDir, bucket, object])
    (uploadID ++ uploadIDSuffix))

/-- `PutObjectPart` (source). -/
def putObjectPart (fs : Filesystem) (s : FsState)
    (bucket object uploadID : String) (partNumber size : Int)
    (data : ByteReader) (md5Hex tmpSuffix : String) :
    Except GoError String × FsState :=
  match checkMultipartArgs fs s bucket object with
  | .error e => (.error e, s)
  | .ok bucket =>
    if isUploadIDExist fs s bucket object uploadID = false then
      (.error (.invalidUploadID uploadID), s)
    else if partNumber ≤ 0 then
      (.error (.goError "invalid part id, cannot be zero or less than zero"),
        s)
    else if partNumber > 10000 then
      (.error (.goError "invalid part id, should be not more than 10000"), s)
    else
      match checkDiskFree fs with
      | .error e => (.error e, s)
      | .ok _ =>
        let partSuffix :=
          uploadID ++ "." ++ toString partNumber ++ "." ++ md5Hex
        let partFilePath := joinAll fs.path [configDir, bucket, object,
          partSuffix]
        match safeWriteFile s partFilePath tmpSuffix data size md5Hex with
        | (.error e, s') => (.error e, s')
        | (.ok _, s') => (.ok md5Hex, s')

end Minio

namespace Minio

/-! ### Upload-ID cleanup (`cleanupUploadID`, `removeFileTree`) -/

/-- Insert into a sorted list (ordering given as a boolean relation). -/
def insertLe {α : Type} (le : α → α → Bool) (a : α) : List α → List α
  | [] => [a]
  | b :: t => if le a b then a :: b :: t else b :: insertLe le a t

/-- Insertion sort (used to present directory entries in byte-wise
ascending order, §4.2). -/
def sortLe {α : Type} (le : α → α → Bool) : List α → List α
  | [] => []
  | a :: t => insertLe le a (sortLe le t)

/-- Modelled from the spec: `FilteredReaddirnames(dir, predicate)` (§4.2,
its implementation lives in the directory walker) — the names of the
directory's direct entries satisfying the predicate, in byte-wise
ascending order; a missing directory is an I/O error. -/
def dirChildNames (s : FsState) (dir : String) : List String :=
  (((s.files.map (fun e => e.1)) ++ s.dirs).dedup.filter
    (fun p => pathDir p == dir)).map baseName

/-- Modelled from the spec: `FilteredReaddirnames` (see `dirChildNames`). -/
def filteredReaddirnames (s : FsState) (dir : String)
    (pred : String → Bool) : Except GoError (List String) :=
  if s.dirs.contains dir then
    .ok ((sortLe (fun a b => !(strLt b a)) (dirChildNames s dir)).filter pred)
  else .error .enoent

/-- Loop of `removeFileTree`: walk `filepath.Dir` upward while the
directory is lexicographically greater than `level`, removing empty
directories; stop at the first non-empty one.  The fuel bounds the
`Dir`-chain, which `pathDir` strictly shortens on every reachable input.
Errors carry the state reached so far (the callers that ignore the error
keep the partial effects). -/
def removeFileTreeLoop : Nat → FsState → String → String →
    Option GoError × FsState
  | 0, s, _, _ => (none, s)
  | n + 1, s, fileDir, level =>
    if strLt level fileDir then
      match isDirEmptyE s fileDir with
      | .error e => (some e, s)
      | .ok false => (none, s)
      | .ok true =>
        match osRemove s fileDir with
        | .error e => (some e, s)
        | .ok s' => removeFileTreeLoop n s' (pathDir fileDir) level
    else (none, s)

/-- `removeFileTree` (source): remove the named entry, then remove
now-empty parent directories while they stay lexicographically above
`level`. -/
def removeFileTree (s : FsState) (fileName level : String) :
    Option GoError × FsState :=
  match osRemove s fileName with
  | .error e => (some e, s)
  | .ok s' => removeFileTreeLoop (fileName.length + 1) s' (pathDir fileName)
      level

/-- Remove the listed names inside a directory, aborting on the first
error (loop body of `cleanupUploadID`). -/
def removeNamesLoop (s : FsState) (dir : String) :
    List String → Option GoError × FsState
  | [] => (none, s)
  | name :: rest =>
    match osRemove s (pathJoin dir name) with
    | .error e => (some e, s)
    | .ok s' => removeNamesLoop s' dir rest

/-- `cleanupUploadID` (source): remove every entry of the object's metadir
whose name starts with `<uploadID>.`; if the metadir became empty, remove
it and its now-empty parents up to `<root>/.minio/<bucket>`. -/
def cleanupUploadID (fs : Filesystem) (s : FsState)
    (bucket object uploadID : String) : Option GoError × FsState :=
  let metaObjectDir := joinAll fs.path [configDir, bucket, object]
  let uploadIDPre := uploadID ++ "."
  match filteredReaddirnames s metaObjectDir
      (fun name => strStartsWith name uploadIDPre) with
  | .error e => (some e, s)
  | .ok names =>
    match removeNamesLoop s metaObjectDir names with
    | (some e, s') => (some e, s')
    | (none, s') =>
      match isDirEmptyE s' metaObjectDir with
      | .error e => (some e, s')
      | .ok false => (none, s')
      | .ok true =>
        removeFileTree s' metaObjectDir (joinAll fs.path [configDir, bucket])

end Minio

namespace Minio

/-! ### CompleteMultipartUpload (`config-v4.go`) -/

/-- Go `strings.Trim(s, "\"")`: strip every leading and trailing '"'. -/
def trimQuotes (s : String) : String :=
  String.mk (((s.data.dropWhile (fun c => c = '"')).reverse.dropWhile
    (fun c => c = '"')).reverse)

/-- Go `strings.TrimPrefix(s, "\"")`. -/
def trimQuotePre (s : String) : String :=
  match s.data with
  | '"' :: rest => String.mk rest
  | _ => s

/-- Go `strings.TrimSuffix(s, "\"")`. -/
def trimQuoteSuf (s : String) : String :=
  match s.data.reverse with
  | '"' :: rest => String.mk rest.reverse
  | _ => s

/-- Go `strings.TrimPrefix(s, ".")`. -/
def trimLeadDot (s : String) : String :=
  match s.data with
  | '.' :: rest => String.mk rest
  | _ => s

/-- Accumulating loop of `makeS3MD5`: hex-decode each part checksum and
append its bytes, failing on a malformed checksum. -/
def makeS3MD5Go : List String → List Nat → Except GoError (List Nat)
  | [], acc => .ok acc
  | md5Str :: rest, acc =>
    match hexDecode md5Str with
    | none => .error (.goError "encoding/hex: invalid byte")
    | some md5Bytes' => makeS3MD5Go rest (acc ++ md5Bytes')

/-- `makeS3MD5` (source): the S3 multipart ETag —
`hex(MD5(concat(decoded part checksums))) ++ "-" ++ count`. -/
def makeS3MD5 (md5Strs : List String) : Except GoError String :=
  match makeS3MD5Go md5Strs [] with
  | .error e => .error e
  | .ok finalMD5Bytes =>
    .ok (hexEncode (md5Bytes finalMD5Bytes) ++ "-" ++ toString md5Strs.length)

/-- The `safe` file's `Close()`: rename the temp file onto its target;
the source discards the returned error, so a failed rename leaves the
pre-rename state. -/
def closeRenamed (s1 : FsState) (tmp target : String) : FsState :=
  match osRename s1 tmp target with
  | .ok t => t
  | .error _ => s1

/-- A part as supplied to completion: part number and client ETag. -/
structure completePart where
  partNumber : Int
  etag : String
deriving DecidableEq

/-- First loop of `CompleteMultipartUpload`: verify each part file exists
(ETag quotes stripped with `strings.Trim`) and collect the checksums in
client order. -/
def collectPartMd5s (s : FsState) (metaObjectDir uploadID : String) :
    List completePart → Except GoError (List String)
  | [] => .ok []
  | part :: rest =>
    let md5sum := trimQuotes part.etag
    let partFile := pathJoin metaObjectDir
      (uploadID ++ "." ++ toString part.partNumber ++ "." ++ md5sum)
    if isFileExistB s partFile then
      match collectPartMd5s s metaObjectDir uploadID rest with
      | .ok l => .ok (md5sum :: l)
      | .error e => .error e
    else .error .invalidPart

/-- Second loop of `CompleteMultipartUpload`: concatenate the part files in
client order (this loop strips one quote from each end of the ETag). -/
def concatParts (s : FsState) (metaObjectDir uploadID : String) :
    List completePart → Except GoError (List Nat)
  | [] => .ok []
  | part :: rest =>
    let md5sum := trimQuoteSuf (trimQuotePre part.etag)
    let partFileStr := pathJoin metaObjectDir
      (uploadID ++ "." ++ toString part.partNumber ++ "." ++ md5sum)
    match lookupFile s partFileStr with
    | none => .error .enoent
    | some r =>
      match concatParts s metaObjectDir uploadID rest with
      | .error e => .error e
      | .ok bs => .ok (r.content ++ bs)

/-- Modelled from the spec: the external MIME table (`mimedb.DB`, §3); a
representative table, keyed by lowercase extension without the dot. -/
def mimeDB : List (String × String) :=
  [("txt", "text/plain"), ("jpg", "image/jpeg"), ("json", "application/json")]

/-- Go `filepath.Ext`: the suffix of the final element from its last dot,
`""` when there is none. -/
def pathExt (p : String) : String :=
  let parts := (splitOnChar '.' (baseName p).data).map String.mk
  if parts.length ≤ 1 then "" else "." ++ parts.getLastD ""

/-- Object metadata returned to the caller. -/
structure ObjectInfo where
  bucket : String
  name : String
  modifiedTime : Nat
  size : Nat
  contentType : String
  md5Sum : String
deriving DecidableEq

/-- `CompleteMultipartUpload` (source): validate, verify every requested
part, compute the S3 multipart ETag, concatenate the parts into a sibling
temp file, rename it onto the object path, clean up the upload-ID (its
error is discarded, its effects kept), and return the object info. -/
def completeMultipartUpload (fs : Filesystem) (s : FsState)
    (bucket object uploadID : String) (parts : List completePart)
    (tmpSuffix : String) : Except GoError ObjectInfo × FsState :=
  match checkMultipartArgs fs s bucket object with
  | .error e => (.error e, s)
  | .ok bucket =>
    if isUploadIDExist fs s bucket object uploadID = false then
      (.error (.invalidUploadID uploadID), s)
    else
      match checkDiskFree fs with
      | .error e => (.error e, s)
      | .ok _ =>
        let metaObjectDir := joinAll fs.path [configDir, bucket, object]
        match collectPartMd5s s metaObjectDir uploadID parts with
        | .error e => (.error e, s)
        | .ok md5Sums =>
          match makeS3MD5 md5Sums with
          | .error e => (.error e, s)
          | .ok s3MD5 =>
            let completeObjectFile := pathJoin metaObjectDir
              (uploadID ++ ".complete.")
            let tmp := tempPath completeObjectFile tmpSuffix
            let s0 := setFile s tmp []
            match concatParts s0 metaObjectDir uploadID parts with
            | .error e => (.error e, removeFileEntry s0 tmp)
            | .ok content =>
              let s1 := setFile s0 tmp content
              let s2 := closeRenamed s1 tmp completeObjectFile
              match lookupFile s2 completeObjectFile with
              | none => (.error .enoent, s2)
              | some objSt =>
                let objectPath := pathJoin (pathJoin fs.path bucket) object
                let s3 := mkdirAll s2 (pathDir objectPath)
                match osRename s3 completeObjectFile objectPath with
                | .error e => (.error e, removeFileEntry s3 completeObjectFile)
                | .ok s4 =>
                  let s5 := (cleanupUploadID fs s4 bucket object uploadID).2
                  let objectExt := pathExt objectPath
                  let contentType :=
                    if objectExt ≠ "" then
                      (mimeDB.lookup (toLowerStr (trimLeadDot
                        objectExt))).getD "application/octet-stream"
                    else "application/octet-stream"
                  (.ok { bucket := bucket, name := object,
                         modifiedTime := objSt.mtime,
                         size := objSt.content.length,
                         contentType := contentType, md5Sum := s3MD5 }, s5)

/-! ### ListObjectParts (`config-v4.go`) -/

/-- Digits of a decimal numeral. -/
def digitsToNat (l : List Char) : Option Nat :=
  if l ≠ [] ∧ l.all (fun c => 48 ≤ c.toNat && c.toNat ≤ 57) then
    some (l.foldl (fun acc c => 10 * acc + (c.toNat - 48)) 0)
  else none

/-- Go `strconv.Atoi` (overflow aside, which the part-number range rules
out). -/
def atoi (str : String) : Option Int :=
  match str.data with
  | '+' :: rest => (digitsToNat rest).map Int.ofNat
  | '-' :: rest => (digitsToNat rest).map (fun n => -(n : Int))
  | l => (digitsToNat l).map Int.ofNat

/-- A directory entry as the walker reports it. -/
structure DirEntry where
  name : String
  modTime : Nat
  size : Nat
  isDir : Bool
deriving DecidableEq

/-- Direct child entries of a directory, in byte-wise ascending name
order. -/
def dirEntriesOf (s : FsState) (dir : String) : List DirEntry :=
  sortLe (fun a b => !(strLt b.name a.name))
  ((((s.files.map (fun e => e.1)).dedup.filter
      (fun p => pathDir p == dir)).filterMap
    (fun p => (lookupFile s p).map (fun r =>
      ({ name := baseName p, modTime := r.mtime, size := r.content.length,
         isDir := false } : DirEntry)))) ++
   ((s.dirs.dedup.filter (fun d => pathDir d == dir)).map (fun d =>
      ({ name := baseName d, modTime := 0, size := 0,
         isDir := true } : DirEntry))))

/-- Modelled from the spec: `FilteredReaddir(dir, predicate, followDirs)`
(§4.2, its implementation lives in the directory walker) — the filtered
child entries; a missing directory is an I/O error. -/
def filteredReaddir (s : FsState) (dir : String) (pred : DirEntry → Bool) :
    Except GoError (List DirEntry) :=
  if s.dirs.contains dir then .ok ((dirEntriesOf s dir).filter pred)
  else .error .enoent

/-- One listed part. -/
structure partInfo where
  partNumber : Int
  lastModified : Nat
  etag : String
  size : Nat
deriving DecidableEq

/-- Result of `ListObjectParts`. -/
structure ListPartsInfo where
  bucket : String
  object : String
  uploadID : String
  partNumberMarker : Int
  nextPartNumberMarker : Int
  maxParts : Int
  isTruncated : Bool
  parts : List partInfo
deriving DecidableEq

/-- The result-building loop of `ListObjectParts`: walk the filtered
entries with index `i`, stopping (truncated) when `i` reaches `maxParts`. -/
def listPartsLoop (maxParts : Int) : List DirEntry → Int →
    List partInfo × Bool
  | [], _ => ([], false)
  | entry :: rest, i =>
    if i = maxParts then ([], true)
    else
      let tokens := (splitOnChar '.' entry.name.data).map String.mk
      let partNumber := (atoi (tokens.getD 1 "")).getD 0
      let md5sum := tokens.getD 2 ""
      let r := listPartsLoop maxParts rest (i + 1)
      (({ partNumber := partNumber, lastModified := entry.modTime,
          etag := md5sum, size := entry.size } : partInfo) :: r.1, r.2)

/-- The entry filter of `ListObjectParts`: `<uploadID>.<n>.<md5>` with
`1 ≤ n ≤ 10000` and `n > partNumberMarker`. -/
def listPartsFilter (uploadID : String) (partNumberMarker : Int)
    (entry : DirEntry) : Bool :=
  match (splitOnChar '.' entry.name.data).map String.mk with
  | [t0, t1, _] =>
    t0 == uploadID &&
      (match atoi t1 with
       | some partNumber =>
         decide (1 ≤ partNumber) && decide (partNumber ≤ 10000) &&
           decide (partNumber > partNumberMarker)
       | none => false)
  | _ => false

/-- `ListObjectParts` (source).  Note how `nextPartNumberMarker` is
initialized to 0 and set back to 0 on truncation. -/
def listObjectParts (fs : Filesystem) (s : FsState)
    (bucket object uploadID : String) (partNumberMarker maxParts : Int) :
    Except GoError ListPartsInfo :=
  match checkMultipartArgs fs s bucket object with
  | .error e => .error e
  | .ok bucket =>
    if isUploadIDExist fs s bucket object uploadID = false then
      .error (.invalidUploadID uploadID)
    else
      let metaObjectDir := joinAll fs.path [configDir, bucket, object]
      match filteredReaddir s metaObjectDir
          (listPartsFilter uploadID partNumberMarker) with
      | .error e => .error e
      | .ok entries =>
        let maxParts' : Int :=
          if maxParts ≤ 0 ∨ maxParts > 1000 then 1000 else maxParts
        let r := listPartsLoop maxParts' entries 0
        let nextPartNumberMarker : Int := 0
        let nextPartNumberMarker := if r.2 then 0 else nextPartNumberMarker
        .ok { bucket := bucket, object := object, uploadID := uploadID,
              partNumberMarker := partNumberMarker,
              nextPartNumberMarker := nextPartNumberMarker,
              maxParts := maxParts', isTruncated := r.2, parts := r.1 }

/-- Well-formedness of a snapshot, as a real filesystem guarantees it: no
path is simultaneously a regular file and a directory. -/
def wfState (s : FsState) : Prop :=
  ∀ p, lookupFile s p ≠ none → p ∉ s.dirs

end Minio

namespace Minio

/-! ## Theorems -/

set_option maxRecDepth 100000

/-! ### State lemmas -/

/-- Helper: lookup after filtering out a key. -/
theorem lookup_filter_ne (l : List (String × FileRec)) (p q : String) :
    (l.filter (fun e => !(e.1 == p))).lookup q =
      if q = p then none else l.lookup q := by
  induction l with
  | nil => simp [List.lookup]
  | cons a t ih =>
    by_cases hap : a.1 = p
    · have h1 : (a.1 == p) = true := by simp [hap]
      by_cases hqp : q = p
      · subst hqp
        simp only [List.filter_cons, h1, Bool.not_true, if_neg Bool.false_ne_true,
          ih, if_pos rfl, if_true]
      · have h2 : (q == a.1) = false := by simp [hap, hqp]
        simp [List.filter_cons, h1, ih, hqp, List.lookup, h2]
    · have h1 : (a.1 == p) = false := by simp [hap]
      by_cases hqa : q = a.1
      · have h2 : (q == a.1) = true := by simp [hqa]
        have h3 : ¬ q = p := by rw [hqa]; exact hap
        simp [List.filter_cons, h1, List.lookup, h2, h3]
      · have h2 : (q == a.1) = false := by simp [hqa]
        simp [List.filter_cons, h1, List.lookup, h2, ih]

/-- Helper: lookup after `setFile`. -/
theorem lookupFile_setFile (s : FsState) (p : String) (c : List Nat)
    (q : String) :
    lookupFile (setFile s p c) q =
      if q = p then some ⟨c, s.now⟩ else lookupFile s q := by
  by_cases h : q = p
  · simp [lookupFile, setFile, List.lookup, h, lookup_filter_ne]
  · have h2 : (q == p) = false := by simp [h]
    simp [lookupFile, setFile, List.lookup, h, h2, lookup_filter_ne]

/-- Helper: lookup after `setFileRec`. -/
theorem lookupFile_setFileRec (s : FsState) (p : String) (r : FileRec)
    (q : String) :
    lookupFile (setFileRec s p r) q =
      if q = p then some r else lookupFile s q := by
  by_cases h : q = p
  · simp [lookupFile, setFileRec, List.lookup, h, lookup_filter_ne]
  · have h2 : (q == p) = false := by simp [h]
    simp [lookupFile, setFileRec, List.lookup, h, h2, lookup_filter_ne]

/-- Helper: lookup after `removeFileEntry`. -/
theorem lookupFile_removeFileEntry (s : FsState) (p q : String) :
    lookupFile (removeFileEntry s p) q =
      if q = p then none else lookupFile s q := by
  by_cases h : q = p <;>
    simp [lookupFile, removeFileEntry, h, lookup_filter_ne]

/-- Helper: file operations keep the clock. -/
theorem now_setFile (s : FsState) (p : String) (c : List Nat) :
    (setFile s p c).now = s.now := rfl

/-- Helper: `removeDirEntry` keeps the files. -/
theorem files_removeDirEntry (s : FsState) (d : String) :
    (removeDirEntry s d).files = s.files := rfl

/-- Helper: directory membership after `removeDirEntry`. -/
theorem mem_dirs_removeDirEntry (s : FsState) (d x : String) :
    x ∈ (removeDirEntry s d).dirs ↔ x ∈ s.dirs ∧ x ≠ d := by
  simp [removeDirEntry, List.mem_filter]

/-- Helper: the temp path differs from its target. -/
theorem tempPath_ne (fileName tmpSuffix : String) :
    tempPath fileName tmpSuffix ≠ fileName := by
  intro h
  have hlen := congrArg String.length h
  simp only [tempPath, String.length_append,
    show ("-" : String).length = 1 from rfl] at hlen
  omega

/-- Helper: the condition loop is the conjunction, over the statement's
condition operators, of the per-operator comparison of the two fixed keys. -/
theorem conditionLoop_eq_all (conditions : List (String × String))
    (l : List (String × List (String × String))) :
    conditionLoop conditions l = l.all (fun oc =>
      if oc.1 = "StringEquals" then
        (mapGet oc.2 "s3:prefix" = mapGet conditions "prefix") &&
          (mapGet oc.2 "s3:max-keys" = mapGet conditions "max-keys")
      else if oc.1 = "StringNotEquals" then
        (¬ mapGet oc.2 "s3:prefix" = mapGet conditions "prefix") &&
          (¬ mapGet oc.2 "s3:max-keys" = mapGet conditions "max-keys")
      else true) := by
  induction l with
  | nil => rfl
  | cons oc rest ih =>
    obtain ⟨op, keys⟩ := oc
    simp only [conditionLoop, List.all_cons, ih]
    split_ifs <;> simp_all

/-! ### Lemmas for the upload-ID cleanup frame (C10) -/

/-- Helper: the byte-wise order is irreflexive. -/
theorem charListLt_irrefl (l : List Char) : charListLt l l = false := by
  induction l with
  | nil => rfl
  | cons a t ih => simp [charListLt, ih]

/-- Helper: the byte-wise order is asymmetric. -/
theorem charListLt_asymm : ∀ l1 l2 : List Char,
    charListLt l1 l2 = true → charListLt l2 l1 = false := by
  intro l1
  induction l1 with
  | nil =>
    intro l2 h
    cases l2 with
    | nil => rfl
    | cons b bs => rfl
  | cons a as ih =>
    intro l2 h
    cases l2 with
    | nil => exact absurd h (by simp [charListLt])
    | cons b bs =>
      simp only [charListLt] at h ⊢
      by_cases h1 : a.toNat < b.toNat
      · have h2 : ¬ b.toNat < a.toNat := by omega
        simp [h1, h2]
      · by_cases h2 : b.toNat < a.toNat
        · simp [h1, h2] at h
        · simp only [h1, h2, if_false] at h ⊢
          exact ih bs h

/-- Helper: a string strictly below a proper extension of itself. -/
theorem charListLt_append (l : List Char) :
    ∀ t : List Char, t ≠ [] → charListLt l (l ++ t) = true := by
  induction l with
  | nil =>
    intro t ht
    cases t with
    | nil => exact absurd rfl ht
    | cons c cs => rfl
  | cons a as ih =>
    intro t ht
    simp [charListLt, ih t ht]

/-- Helper: character data of an appended string. -/
theorem data_append (a b : String) : (a ++ b).data = a.data ++ b.data :=
  String.data_append a b

/-- Helper: `strLt a (a ++ "/" ++ b)` always holds. -/
theorem strLt_slash_append (a b : String) :
    strLt a (a ++ "/" ++ b) = true := by
  unfold strLt
  rw [data_append, data_append]
  rw [show ("/" : String).data = ['/'] from rfl, List.append_assoc]
  exact charListLt_append a.data ('/' :: b.data) (by simp)

/-- Helper: a nonempty lookup means the key is present. -/
theorem lookup_ne_none_mem (l : List (String × FileRec)) (q : String)
    (h : l.lookup q ≠ none) : ∃ b, (q, b) ∈ l := by
  induction l with
  | nil => simp [List.lookup] at h
  | cons a t ih =>
    rw [List.lookup] at h
    by_cases hqa : q = a.1
    · exact ⟨a.2, by rw [hqa]; exact List.mem_cons_self _ _⟩
    · have hba : (q == a.1) = false := by simp [hqa]
      rw [hba] at h
      obtain ⟨b, hb⟩ := ih h
      exact ⟨b, List.mem_cons_of_mem _ hb⟩

/-- Helper: a directory without children has no surviving direct child
entry. -/
theorem no_child_of_dirHasChild_false (s : FsState) (x : String)
    (h : dirHasChild s x = false) :
    ∀ q, (lookupFile s q ≠ none ∨ q ∈ s.dirs) → pathDir q ≠ x := by
  intro q hq hpd
  unfold dirHasChild at h
  rw [Bool.or_eq_false_iff] at h
  obtain ⟨hf, hd⟩ := h
  cases hq with
  | inl hfq =>
    obtain ⟨b, hb⟩ := lookup_ne_none_mem s.files q hfq
    have := List.any_eq_false.mp hf (q, b) hb
    simp [hpd] at this
  | inr hdq =>
    have := List.any_eq_false.mp hd q hdq
    simp [hpd] at this

/-- Helper: characterization of a successful `os.Remove`. -/
theorem osRemove_ok (s : FsState) (p : String) (s₂ : FsState)
    (h : osRemove s p = .ok s₂) :
    (lookupFile s p ≠ none ∧ s₂ = removeFileEntry s p) ∨
    (lookupFile s p = none ∧ p ∈ s.dirs ∧ dirHasChild s p = false ∧
      s₂ = removeDirEntry s p) := by
  unfold osRemove at h
  split_ifs at h with h1 h2 h3
  · left
    refine ⟨?_, ?_⟩
    · intro hc
      rw [hc] at h1
      simp at h1
    · rw [Except.ok.injEq] at h
      exact h.symm
  · right
    refine ⟨?_, List.elem_iff.mp h2, ?_, ?_⟩
    · cases hlp : lookupFile s p with
      | none => rfl
      | some v =>
        rw [hlp] at h1
        simp at h1
    · cases hdc : dirHasChild s p with
      | false => rfl
      | true => exact absurd hdc h3
    · rw [Except.ok.injEq] at h
      exact h.symm

/-- Helper: a directory reported empty exists and has no children. -/
theorem isDirEmptyE_true (s : FsState) (d : String)
    (h : isDirEmptyE s d = .ok true) :
    d ∈ s.dirs ∧ dirHasChild s d = false := by
  unfold isDirEmptyE at h
  split_ifs at h with h1
  · rw [Except.ok.injEq] at h
    refine ⟨List.elem_iff.mp h1, ?_⟩
    cases hb : dirHasChild s d
    · rfl
    · rw [hb] at h
      simp at h

/-- Helper: `removeDirEntry` keeps every file lookup. -/
theorem lookupFile_removeDirEntry (s : FsState) (d q : String) :
    lookupFile (removeDirEntry s d) q = lookupFile s q := rfl

/-- Helper: invariants of the name-removal loop of `cleanupUploadID`.
Entries only disappear; a changed file is a removed file at one of the
listed names inside `dir`; a removed directory is at one of the listed
names and keeps no surviving direct child; well-formedness is
preserved. -/
theorem removeNamesLoop_frame :
    ∀ (names : List String) (s : FsState) (dir : String),
    (∀ q, (lookupFile (removeNamesLoop s dir names).2 q ≠ none →
        lookupFile s q ≠ none) ∧
      (q ∈ (removeNamesLoop s dir names).2.dirs → q ∈ s.dirs)) ∧
    (∀ p, lookupFile (removeNamesLoop s dir names).2 p ≠ lookupFile s p →
      lookupFile (removeNamesLoop s dir names).2 p = none ∧
      ∃ n ∈ names, p = pathJoin dir n) ∧
    (∀ d, d ∈ s.dirs → d ∉ (removeNamesLoop s dir names).2.dirs →
      (∃ n ∈ names, d = pathJoin dir n) ∧
      (∀ q, (lookupFile (removeNamesLoop s dir names).2 q ≠ none ∨
        q ∈ (removeNamesLoop s dir names).2.dirs) → pathDir q ≠ d)) ∧
    (wfState s → wfState (removeNamesLoop s dir names).2) := by
  intro names
  induction names with
  | nil =>
    intro s dir
    exact ⟨fun q => ⟨id, id⟩, fun p hp => absurd rfl hp,
      fun d hd hnd => absurd hd hnd, id⟩
  | cons n rest ih =>
    intro s dir
    cases hrm : osRemove s (pathJoin dir n) with
    | error e =>
      have hres : (removeNamesLoop s dir (n :: rest)).2 = s := by
        simp [removeNamesLoop, hrm]
      rw [hres]
      exact ⟨fun q => ⟨id, id⟩, fun p hp => absurd rfl hp,
        fun d hd hnd => absurd hd hnd, id⟩
    | ok s₁ =>
      have hres : removeNamesLoop s dir (n :: rest) =
          removeNamesLoop s₁ dir rest := by
        simp [removeNamesLoop, hrm]
      rw [hres]
      obtain ⟨ihmono, ihfiles, ihdirs, ihwf⟩ := ih s₁ dir
      rcases osRemove_ok s _ s₁ hrm with ⟨hne, hfe⟩ |
        ⟨hnone, hmem, hnc, hde⟩
      · subst hfe
        refine ⟨?_, ?_, ?_, ?_⟩
        · intro q
          refine ⟨fun hq => ?_, fun hq => (ihmono q).2 hq⟩
          have h1 := (ihmono q).1 hq
          rw [lookupFile_removeFileEntry] at h1
          by_cases hqp : q = pathJoin dir n
          · rw [if_pos hqp] at h1
            exact absurd rfl h1
          · rw [if_neg hqp] at h1
            exact h1
        · intro p hp
          by_cases hch : lookupFile (removeNamesLoop
              (removeFileEntry s (pathJoin dir n)) dir rest).2 p =
              lookupFile (removeFileEntry s (pathJoin dir n)) p
          · rw [hch] at hp ⊢
            rw [lookupFile_removeFileEntry] at hp ⊢
            by_cases hqp : p = pathJoin dir n
            · exact ⟨by rw [if_pos hqp], n, List.mem_cons_self _ _, hqp⟩
            · rw [if_neg hqp] at hp
              exact absurd rfl hp
          · obtain ⟨h1, n', hn', hp'⟩ := ihfiles p hch
            exact ⟨h1, n', List.mem_cons_of_mem _ hn', hp'⟩
        · intro d hd hnd
          obtain ⟨⟨n', hn', hd'⟩, hchild⟩ := ihdirs d hd hnd
          exact ⟨⟨n', List.mem_cons_of_mem _ hn', hd'⟩, hchild⟩
        · intro hwf
          refine ihwf ?_
          intro p hp
          rw [lookupFile_removeFileEntry] at hp
          by_cases hqp : p = pathJoin dir n
          · rw [if_pos hqp] at hp
            exact absurd rfl hp
          · rw [if_neg hqp] at hp
            exact hwf p hp
      · subst hde
        refine ⟨?_, ?_, ?_, ?_⟩
        · intro q
          refine ⟨fun hq => (ihmono q).1 hq, fun hq => ?_⟩
          exact ((mem_dirs_removeDirEntry s _ q).mp ((ihmono q).2 hq)).1
        · intro p hp
          obtain ⟨h1, n', hn', hp'⟩ := ihfiles p hp
          exact ⟨h1, n', List.mem_cons_of_mem _ hn', hp'⟩
        · intro d hd hnd
          by_cases hdx : d = pathJoin dir n
          · refine ⟨⟨n, List.mem_cons_self _ _, hdx⟩, ?_⟩
            intro q hq
            rw [hdx] at hd ⊢
            refine no_child_of_dirHasChild_false s _ hnc q ?_
            cases hq with
            | inl h1 => exact Or.inl ((ihmono q).1 h1)
            | inr h2 =>
              exact Or.inr
                ((mem_dirs_removeDirEntry s _ q).mp ((ihmono q).2 h2)).1
          · have hd1 : d ∈ (removeDirEntry s (pathJoin dir n)).dirs :=
              (mem_dirs_removeDirEntry s _ d).mpr ⟨hd, hdx⟩
            obtain ⟨⟨n', hn', hd'⟩, hchild⟩ := ihdirs d hd1 hnd
            exact ⟨⟨n', List.mem_cons_of_mem _ hn', hd'⟩, hchild⟩
        · intro hwf
          refine ihwf ?_
          intro p hp
          rw [lookupFile_removeDirEntry] at hp
          intro hpd
          exact hwf p hp ((mem_dirs_removeDirEntry s _ p).mp hpd).1

/-- Helper: invariants of the upward directory-removal loop of
`removeFileTree` (run on a well-formed state): files are untouched,
directories only disappear, every removed directory is lexicographically
above `level` and keeps no surviving direct child, and well-formedness is
preserved. -/
theorem removeFileTreeLoop_frame :
    ∀ (fuel : Nat) (s : FsState) (fileDir level : String),
    wfState s →
    (∀ p, lookupFile (removeFileTreeLoop fuel s fileDir level).2 p =
      lookupFile s p) ∧
    (∀ q, q ∈ (removeFileTreeLoop fuel s fileDir level).2.dirs →
      q ∈ s.dirs) ∧
    (∀ d, d ∈ s.dirs →
      d ∉ (removeFileTreeLoop fuel s fileDir level).2.dirs →
      strLt level d = true ∧
      (∀ q, (lookupFile (removeFileTreeLoop fuel s fileDir level).2 q ≠
          none ∨ q ∈ (removeFileTreeLoop fuel s fileDir level).2.dirs) →
        pathDir q ≠ d)) ∧
    wfState (removeFileTreeLoop fuel s fileDir level).2 := by
  intro fuel
  induction fuel with
  | zero =>
    intro s fileDir level hwf
    exact ⟨fun p => rfl, fun q => id, fun d hd hnd => absurd hd hnd, hwf⟩
  | succ m ih =>
    intro s fileDir level hwf
    by_cases hguard : strLt level fileDir = true
    · cases hemp : isDirEmptyE s fileDir with
      | error e =>
        have hres : (removeFileTreeLoop (m + 1) s fileDir level).2 = s := by
          simp [removeFileTreeLoop, hguard, hemp]
        rw [hres]
        exact ⟨fun p => rfl, fun q => id, fun d hd hnd => absurd hd hnd, hwf⟩
      | ok b =>
        cases b with
        | false =>
          have hres : (removeFileTreeLoop (m + 1) s fileDir level).2 = s := by
            simp [removeFileTreeLoop, hguard, hemp]
          rw [hres]
          exact ⟨fun p => rfl, fun q => id, fun d hd hnd => absurd hd hnd,
            hwf⟩
        | true =>
          obtain ⟨hmem, hnc⟩ := isDirEmptyE_true s fileDir hemp
          have hlf : lookupFile s fileDir = none := by
            cases hlp : lookupFile s fileDir with
            | none => rfl
            | some v =>
              exact absurd hmem (hwf fileDir (by rw [hlp]; simp))
          have hcont : s.dirs.contains fileDir = true :=
            List.elem_iff.mpr hmem
          have hrm : osRemove s fileDir = .ok (removeDirEntry s fileDir) := by
            unfold osRemove
            rw [hlf]
            simp [hnc, hmem]
          have hres : removeFileTreeLoop (m + 1) s fileDir level =
              removeFileTreeLoop m (removeDirEntry s fileDir)
                (pathDir fileDir) level := by
            simp [removeFileTreeLoop, hguard, hemp, hrm]
          rw [hres]
          have hwf1 : wfState (removeDirEntry s fileDir) := by
            intro p hp hpd
            exact hwf p hp ((mem_dirs_removeDirEntry s _ p).mp hpd).1
          obtain ⟨ihf, ihd, ihrem, ihwf⟩ :=
            ih (removeDirEntry s fileDir) (pathDir fileDir) level hwf1
          refine ⟨?_, ?_, ?_, ihwf⟩
          · intro p
            rw [ihf p, lookupFile_removeDirEntry]
          · intro q hq
            exact ((mem_dirs_removeDirEntry s _ q).mp (ihd q hq)).1
          · intro d hd hnd
            by_cases hdx : d = fileDir
            · subst hdx
              refine ⟨hguard, ?_⟩
              intro q hq
              refine no_child_of_dirHasChild_false s d hnc q ?_
              cases hq with
              | inl h1 =>
                rw [ihf q, lookupFile_removeDirEntry] at h1
                exact Or.inl h1
              | inr h2 =>
                exact Or.inr
                  ((mem_dirs_removeDirEntry s _ q).mp (ihd q h2)).1
            · have hd1 : d ∈ (removeDirEntry s fileDir).dirs :=
                (mem_dirs_removeDirEntry s _ d).mpr ⟨hd, hdx⟩
              exact ihrem d hd1 hnd
    · have hres : (removeFileTreeLoop (m + 1) s fileDir level).2 = s := by
        simp [removeFileTreeLoop, hguard]
      rw [hres]
      exact ⟨fun p => rfl, fun q => id, fun d hd hnd => absurd hd hnd, hwf⟩

/-- Helper: a grandchild path is lexicographically above the grandparent. -/
theorem strLt_level_child (level object n : String) :
    strLt level (pathJoin (pathJoin level object) n) = true := by
  unfold strLt pathJoin
  simp only [data_append, show ("/" : String).data = ['/'] from rfl,
    List.append_assoc]
  exact charListLt_append _ _ (by simp)

/-- Helper: joining preserves name prefixes. -/
theorem strStartsWith_pathJoin (dir n pre : String)
    (h : strStartsWith n pre = true) :
    strStartsWith (pathJoin dir n) (pathJoin dir pre) = true := by
  unfold strStartsWith at h ⊢
  unfold pathJoin
  rw [List.isPrefixOf_iff_prefix] at h ⊢
  obtain ⟨t, ht⟩ := h
  refine ⟨t, ?_⟩
  simp only [data_append, List.append_assoc, ht]

/-- Helper: a directory lexicographically above `level` is neither `level`
itself nor an ancestor of it. -/
theorem strLt_not_at_or_above (level d : String)
    (h : strLt level d = true) :
    d ≠ level ∧ strStartsWith level (d ++ "/") = false := by
  constructor
  · intro hdl
    subst hdl
    unfold strLt at h
    rw [charListLt_irrefl] at h
    exact Bool.noConfusion h
  · cases hsw : strStartsWith level (d ++ "/") with
    | false => rfl
    | true =>
      exfalso
      unfold strStartsWith at hsw
      rw [List.isPrefixOf_iff_prefix] at hsw
      obtain ⟨t, ht⟩ := hsw
      have hlt : charListLt d.data level.data = true := by
        rw [← ht, data_append, show ("/" : String).data = ['/'] from rfl,
          List.append_assoc]
        exact charListLt_append _ _ (by simp)
      have hasym := charListLt_asymm _ _ hlt
      unfold strLt at h
      rw [h] at hasym
      exact Bool.noConfusion hasym

/-- Helper: names a successful `filteredReaddirnames` returns satisfy the
predicate. -/
theorem filteredReaddirnames_pred (s : FsState) (dir : String)
    (pred : String → Bool) (names : List String)
    (h : filteredReaddirnames s dir pred = .ok names) :
    ∀ n ∈ names, pred n = true := by
  unfold filteredReaddirnames at h
  split_ifs at h with h1
  rw [Except.ok.injEq] at h
  subst h
  intro n hn
  exact List.of_mem_filter hn

/-- Claim C10: `AbortMultipartUpload`'s and `CompleteMultipartUpload`'s
cleanup step removes only files in the object's metadir whose names start
with `<uploadID>.` (so reservation and part files of every other
upload-ID, and every file outside the metadir, keep their content);
directories are removed only strictly below `<root>/.minio/<bucket>`
(never at or above it), and only when they have no surviving direct
child — i.e. they were empty at removal. -/
theorem c10_cleanup_frame (fs : Filesystem) (s : FsState)
    (bucket object uploadID : String) (hwf : wfState s) :
    (∀ p, lookupFile (cleanupUploadID fs s bucket object uploadID).2 p ≠
        lookupFile s p →
      strStartsWith p (pathJoin (joinAll fs.path [configDir, bucket,
        object]) (uploadID ++ ".")) = true ∧
      lookupFile (cleanupUploadID fs s bucket object uploadID).2 p =
        none) ∧
    (∀ d, d ∈ s.dirs →
      d ∉ (cleanupUploadID fs s bucket object uploadID).2.dirs →
      strLt (joinAll fs.path [configDir, bucket]) d = true ∧
      d ≠ joinAll fs.path [configDir, bucket] ∧
      strStartsWith (joinAll fs.path [configDir, bucket]) (d ++ "/") =
        false) ∧
    (∀ d, d ∈ s.dirs →
      d ∉ (cleanupUploadID fs s bucket object uploadID).2.dirs →
      ∀ q, (lookupFile (cleanupUploadID fs s bucket object uploadID).2 q ≠
          none ∨
        q ∈ (cleanupUploadID fs s bucket object uploadID).2.dirs) →
        pathDir q ≠ d) := by
  have hmeta : joinAll fs.path [configDir, bucket, object] =
      pathJoin (joinAll fs.path [configDir, bucket]) object := rfl
  cases hfil : filteredReaddirnames s
      (joinAll fs.path [configDir, bucket, object])
      (fun name => strStartsWith name (uploadID ++ ".")) with
  | error e =>
    have hres : (cleanupUploadID fs s bucket object uploadID).2 = s := by
      simp [cleanupUploadID, hfil]
    rw [hres]
    exact ⟨fun p hp => absurd rfl hp, fun d hd hnd => absurd hd hnd,
      fun d hd hnd => absurd hd hnd⟩
  | ok names =>
    have hnames := filteredReaddirnames_pred s _ _ names hfil
    obtain ⟨ihmono, ihfiles, ihdirs, ihwf⟩ := removeNamesLoop_frame names s
      (joinAll fs.path [configDir, bucket, object])
    rcases hloop : removeNamesLoop s
        (joinAll fs.path [configDir, bucket, object]) names with ⟨r1, s₁⟩
    rw [hloop] at ihmono ihfiles ihdirs ihwf
    have hA1 : ∀ p, lookupFile s₁ p ≠ lookupFile s p →
        strStartsWith p (pathJoin (joinAll fs.path [configDir, bucket,
          object]) (uploadID ++ ".")) = true ∧
        lookupFile s₁ p = none := by
      intro p hp
      obtain ⟨h1, n, hn, hp'⟩ := ihfiles p hp
      subst hp'
      exact ⟨strStartsWith_pathJoin _ _ _ (hnames n hn), h1⟩
    have hB1 : ∀ d, d ∈ s.dirs → d ∉ s₁.dirs →
        strLt (joinAll fs.path [configDir, bucket]) d = true := by
      intro d hd hnd
      obtain ⟨⟨n, hn, hd'⟩, _⟩ := ihdirs d hd hnd
      rw [hd', hmeta]
      exact strLt_level_child _ _ _
    cases r1 with
    | some e =>
      have hres : (cleanupUploadID fs s bucket object uploadID).2 = s₁ := by
        simp [cleanupUploadID, hfil, hloop]
      rw [hres]
      refine ⟨hA1, ?_, ?_⟩
      · intro d hd hnd
        exact ⟨hB1 d hd hnd, strLt_not_at_or_above _ _ (hB1 d hd hnd)⟩
      · intro d hd hnd
        exact (ihdirs d hd hnd).2
    | none =>
      cases hemp : isDirEmptyE s₁
          (joinAll fs.path [configDir, bucket, object]) with
      | error e =>
        have hres : (cleanupUploadID fs s bucket object uploadID).2 =
            s₁ := by
          simp [cleanupUploadID, hfil, hloop, hemp]
        rw [hres]
        refine ⟨hA1, ?_, ?_⟩
        · intro d hd hnd
          exact ⟨hB1 d hd hnd, strLt_not_at_or_above _ _ (hB1 d hd hnd)⟩
        · intro d hd hnd
          exact (ihdirs d hd hnd).2
      | ok b =>
        cases b with
        | false =>
          have hres : (cleanupUploadID fs s bucket object uploadID).2 =
              s₁ := by
            simp [cleanupUploadID, hfil, hloop, hemp]
          rw [hres]
          refine ⟨hA1, ?_, ?_⟩
          · intro d hd hnd
            exact ⟨hB1 d hd hnd, strLt_not_at_or_above _ _ (hB1 d hd hnd)⟩
          · intro d hd hnd
            exact (ihdirs d hd hnd).2
        | true =>
          obtain ⟨hmem₁, hnc₁⟩ := isDirEmptyE_true s₁ _ hemp
          have hwf₁ : wfState s₁ := ihwf hwf
          have hlf₁ : lookupFile s₁
              (joinAll fs.path [configDir, bucket, object]) = none := by
            cases hlp : lookupFile s₁
                (joinAll fs.path [configDir, bucket, object]) with
            | none => rfl
            | some v =>
              exact absurd hmem₁ (hwf₁ _ (by rw [hlp]; simp))
          have hrm : osRemove s₁
              (joinAll fs.path [configDir, bucket, object]) =
              .ok (removeDirEntry s₁
                (joinAll fs.path [configDir, bucket, object])) := by
            unfold osRemove
            rw [hlf₁]
            simp [hnc₁, hmem₁]
          have hres : (cleanupUploadID fs s bucket object uploadID).2 =
              (removeFileTreeLoop
                ((joinAll fs.path [configDir, bucket, object]).length + 1)
                (removeDirEntry s₁
                  (joinAll fs.path [configDir, bucket, object]))
                (pathDir (joinAll fs.path [configDir, bucket, object]))
                (joinAll fs.path [configDir, bucket])).2 := by
            simp [cleanupUploadID, hfil, hloop, hemp, removeFileTree, hrm]
          have hwf₂ : wfState (removeDirEntry s₁
              (joinAll fs.path [configDir, bucket, object])) := by
            intro p hp hpd
            exact hwf₁ p hp ((mem_dirs_removeDirEntry s₁ _ p).mp hpd).1
          obtain ⟨tf, td, trem, twf⟩ := removeFileTreeLoop_frame
            ((joinAll fs.path [configDir, bucket, object]).length + 1)
            (removeDirEntry s₁ (joinAll fs.path [configDir, bucket,
              object]))
            (pathDir (joinAll fs.path [configDir, bucket, object]))
            (joinAll fs.path [configDir, bucket]) hwf₂
          rw [hres]
          refine ⟨?_, ?_, ?_⟩
          · intro p hp
            rw [tf p, lookupFile_removeDirEntry] at hp ⊢
            exact hA1 p hp
          · intro d hd hnd
            by_cases hd₁ : d ∈ s₁.dirs
            · by_cases hdm : d = joinAll fs.path [configDir, bucket,
                object]
              · subst hdm
                rw [hmeta]
                refine ⟨strLt_slash_append _ _, strLt_not_at_or_above _ _
                  (strLt_slash_append _ _)⟩
              · have hd₂ : d ∈ (removeDirEntry s₁
                    (joinAll fs.path [configDir, bucket, object])).dirs :=
                  (mem_dirs_removeDirEntry s₁ _ d).mpr ⟨hd₁, hdm⟩
                have := (trem d hd₂ hnd).1
                exact ⟨this, strLt_not_at_or_above _ _ this⟩
            · exact ⟨hB1 d hd hd₁, strLt_not_at_or_above _ _
                (hB1 d hd hd₁)⟩
          · intro d hd hnd q hq
            have hq₁ : lookupFile s₁ q ≠ none ∨ q ∈ s₁.dirs := by
              cases hq with
              | inl h1 =>
                rw [tf q, lookupFile_removeDirEntry] at h1
                exact Or.inl h1
              | inr h2 =>
                exact Or.inr ((mem_dirs_removeDirEntry s₁ _ q).mp
                  (td q h2)).1
            by_cases hd₁ : d ∈ s₁.dirs
            · by_cases hdm : d = joinAll fs.path [configDir, bucket,
                object]
              · subst hdm
                exact no_child_of_dirHasChild_false s₁ _ hnc₁ q hq₁
              · have hd₂ : d ∈ (removeDirEntry s₁
                    (joinAll fs.path [configDir, bucket, object])).dirs :=
                  (mem_dirs_removeDirEntry s₁ _ d).mpr ⟨hd₁, hdm⟩
                exact (trem d hd₂ hnd).2 q hq
            · exact (ihdirs d hd hd₁).2 q hq₁

/-- Witness for C10: cleaning upload-ID `u` in a metadir also holding the
reservation file of upload-ID `v`, on a well-formed snapshot. -/
theorem c10_cleanup_frame_witness :
    (∀ p, lookupFile (cleanupUploadID ⟨"r", false⟩
        ⟨[("r/.minio/b/o/u.uploadid", ⟨[], 0⟩),
          ("r/.minio/b/o/v.uploadid", ⟨[], 0⟩)],
         ["r", "r/.minio", "r/.minio/b", "r/.minio/b/o"], 0⟩
        "b" "o" "u").2 p ≠
        lookupFile ⟨[("r/.minio/b/o/u.uploadid", ⟨[], 0⟩),
          ("r/.minio/b/o/v.uploadid", ⟨[], 0⟩)],
         ["r", "r/.minio", "r/.minio/b", "r/.minio/b/o"], 0⟩ p →
      strStartsWith p (pathJoin (joinAll "r" [configDir, "b", "o"])
        ("u" ++ ".")) = true ∧
      lookupFile (cleanupUploadID ⟨"r", false⟩
        ⟨[("r/.minio/b/o/u.uploadid", ⟨[], 0⟩),
          ("r/.minio/b/o/v.uploadid", ⟨[], 0⟩)],
         ["r", "r/.minio", "r/.minio/b", "r/.minio/b/o"], 0⟩
        "b" "o" "u").2 p = none) ∧
    (∀ d, d ∈ (⟨[("r/.minio/b/o/u.uploadid", ⟨[], 0⟩),
          ("r/.minio/b/o/v.uploadid", ⟨[], 0⟩)],
         ["r", "r/.minio", "r/.minio/b", "r/.minio/b/o"], 0⟩ :
           FsState).dirs →
      d ∉ (cleanupUploadID ⟨"r", false⟩
        ⟨[("r/.minio/b/o/u.uploadid", ⟨[], 0⟩),
          ("r/.minio/b/o/v.uploadid", ⟨[], 0⟩)],
         ["r", "r/.minio", "r/.minio/b", "r/.minio/b/o"], 0⟩
        "b" "o" "u").2.dirs →
      strLt (joinAll "r" [configDir, "b"]) d = true ∧
      d ≠ joinAll "r" [configDir, "b"] ∧
      strStartsWith (joinAll "r" [configDir, "b"]) (d ++ "/") = false) ∧
    (∀ d, d ∈ (⟨[("r/.minio/b/o/u.uploadid", ⟨[], 0⟩),
          ("r/.minio/b/o/v.uploadid", ⟨[], 0⟩)],
         ["r", "r/.minio", "r/.minio/b", "r/.minio/b/o"], 0⟩ :
           FsState).dirs →
      d ∉ (cleanupUploadID ⟨"r", false⟩
        ⟨[("r/.minio/b/o/u.uploadid", ⟨[], 0⟩),
          ("r/.minio/b/o/v.uploadid", ⟨[], 0⟩)],
         ["r", "r/.minio", "r/.minio/b", "r/.minio/b/o"], 0⟩
        "b" "o" "u").2.dirs →
      ∀ q, (lookupFile (cleanupUploadID ⟨"r", false⟩
          ⟨[("r/.minio/b/o/u.uploadid", ⟨[], 0⟩),
            ("r/.minio/b/o/v.uploadid", ⟨[], 0⟩)],
           ["r", "r/.minio", "r/.minio/b", "r/.minio/b/o"], 0⟩
          "b" "o" "u").2 q ≠ none ∨
        q ∈ (cleanupUploadID ⟨"r", false⟩
          ⟨[("r/.minio/b/o/u.uploadid", ⟨[], 0⟩),
            ("r/.minio/b/o/v.uploadid", ⟨[], 0⟩)],
           ["r", "r/.minio", "r/.minio/b", "r/.minio/b/o"], 0⟩
          "b" "o" "u").2.dirs) →
        pathDir q ≠ d) :=
  c10_cleanup_frame ⟨"r", false⟩
    ⟨[("r/.minio/b/o/u.uploadid", ⟨[], 0⟩),
      ("r/.minio/b/o/v.uploadid", ⟨[], 0⟩)],
     ["r", "r/.minio", "r/.minio/b", "r/.minio/b/o"], 0⟩
    "b" "o" "u"
    (by
      intro p hp
      obtain ⟨b, hb⟩ := lookup_ne_none_mem _ p hp
      simp only [List.mem_cons, List.not_mem_nil, or_false,
        Prod.mk.injEq] at hb
      rcases hb with ⟨h1, _⟩ | ⟨h1, _⟩ <;> subst h1 <;> decide)

/-- Claim C8: whenever `ListObjectParts` returns a truncated result (more
matching parts exist than `maxParts`), the returned `NextPartNumberMarker`
is 0 rather than the last emitted part number. -/
theorem c8_list_parts_truncated_marker_zero (fs : Filesystem) (s : FsState)
    (bucket object uploadID : String) (partNumberMarker maxParts : Int)
    (info : ListPartsInfo)
    (h : listObjectParts fs s bucket object uploadID partNumberMarker
      maxParts = .ok info)
    (ht : info.isTruncated = true) :
    info.nextPartNumberMarker = 0 := by
  simp only [listObjectParts] at h
  split at h
  · exact Except.noConfusion h
  · split at h
    · exact Except.noConfusion h
    · split at h
      · exact Except.noConfusion h
      · rw [Except.ok.injEq] at h
        subst h
        simp

/-- Witness for C8: a metadir holding two matching part files listed with
`maxParts = 1` truncates, and the returned next marker is 0. -/
theorem c8_list_parts_truncated_marker_zero_witness :
    (listObjectParts ⟨"root", false⟩
        ⟨[("root/.minio/bucket/obj/u.uploadid", ⟨[], 0⟩),
          ("root/.minio/bucket/obj/u.1.aa", ⟨[1], 1⟩),
          ("root/.minio/bucket/obj/u.2.bb", ⟨[2], 2⟩)],
         ["root", "root/bucket", "root/.minio", "root/.minio/bucket",
          "root/.minio/bucket/obj"], 5⟩
        "bucket" "obj" "u" 0 1 =
      .ok { bucket := "bucket", object := "obj", uploadID := "u",
            partNumberMarker := 0, nextPartNumberMarker := 0, maxParts := 1,
            isTruncated := true,
            parts := [{ partNumber := 1, lastModified := 1, etag := "aa",
                        size := 1 }] }) ∧
    ({ bucket := "bucket", object := "obj", uploadID := "u",
       partNumberMarker := 0, nextPartNumberMarker := 0, maxParts := 1,
       isTruncated := true,
       parts := [{ partNumber := 1, lastModified := 1, etag := "aa",
                   size := 1 }] } : ListPartsInfo).nextPartNumberMarker
      = 0 := by
  refine ⟨by decide, ?_⟩
  exact c8_list_parts_truncated_marker_zero ⟨"root", false⟩
    ⟨[("root/.minio/bucket/obj/u.uploadid", ⟨[], 0⟩),
      ("root/.minio/bucket/obj/u.1.aa", ⟨[1], 1⟩),
      ("root/.minio/bucket/obj/u.2.bb", ⟨[2], 2⟩)],
     ["root", "root/bucket", "root/.minio", "root/.minio/bucket",
      "root/.minio/bucket/obj"], 5⟩
    "bucket" "obj" "u" 0 1 _ (by decide) (by decide)

/-- Helper: lookups in the state left after discarding the temp file. -/
theorem lookup_discard (s : FsState) (tmp : String) (w : List Nat)
    (p : String) :
    lookupFile (removeFileEntry (setFile (setFile s tmp []) tmp w) tmp) p =
      if p = tmp then none else lookupFile s p := by
  by_cases h : p = tmp <;>
    simp [lookupFile_removeFileEntry, lookupFile_setFile, h]

/-- Helper: `safeWriteFile` when the copy stage fails: the temp file is
discarded and the error returned. -/
theorem safeWriteFile_copy_error (s : FsState) (fileName tmpSuffix : String)
    (data : ByteReader) (size : Int) (md5sum : String) (e : GoError)
    (herr : (copyPhase data size).2 = some e) :
    safeWriteFile s fileName tmpSuffix data size md5sum =
      (.error e, removeFileEntry (setFile (setFile s
        (tempPath fileName tmpSuffix) []) (tempPath fileName tmpSuffix)
        (copyPhase data size).1) (tempPath fileName tmpSuffix)) := by
  simp only [safeWriteFile, herr]

/-- Helper: `safeWriteFile` when the copy stage succeeds but the checksum
check fails. -/
theorem safeWriteFile_bad_digest (s : FsState) (fileName tmpSuffix : String)
    (data : ByteReader) (size : Int) (md5sum : String)
    (herr : (copyPhase data size).2 = none) (hne : md5sum ≠ "")
    (hmd5 : isMD5SumEqual md5sum
      (hexEncode (md5Bytes (copyPhase data size).1)) = false) :
    safeWriteFile s fileName tmpSuffix data size md5sum =
      (.error (.badDigest md5sum
        (hexEncode (md5Bytes (copyPhase data size).1))),
       removeFileEntry (setFile (setFile s
        (tempPath fileName tmpSuffix) []) (tempPath fileName tmpSuffix)
        (copyPhase data size).1) (tempPath fileName tmpSuffix)) := by
  simp only [safeWriteFile, herr]
  rw [if_pos ⟨hne, hmd5⟩]

/-- Helper: `safeWriteFile` when both the copy stage and the checksum
check succeed: the temp file is renamed onto the target. -/
theorem safeWriteFile_commit (s : FsState) (fileName tmpSuffix : String)
    (data : ByteReader) (size : Int) (md5sum : String)
    (herr : (copyPhase data size).2 = none)
    (hmd5 : ¬ (md5sum ≠ "" ∧ isMD5SumEqual md5sum
      (hexEncode (md5Bytes (copyPhase data size).1)) = false)) :
    safeWriteFile s fileName tmpSuffix data size md5sum =
      (.ok (), setFileRec (removeFileEntry (setFile (setFile s
        (tempPath fileName tmpSuffix) []) (tempPath fileName tmpSuffix)
        (copyPhase data size).1) (tempPath fileName tmpSuffix)) fileName
        ⟨(copyPhase data size).1, s.now⟩) := by
  simp only [safeWriteFile, herr]
  rw [if_neg hmd5]
  have hlook : lookupFile (setFile (setFile s (tempPath fileName tmpSuffix)
      []) (tempPath fileName tmpSuffix) (copyPhase data size).1)
      (tempPath fileName tmpSuffix) =
      some ⟨(copyPhase data size).1, s.now⟩ := by
    simp [lookupFile_setFile, now_setFile]
  simp only [osRename, hlook]

/-- Claim C5, counterexample.  With `size = 0` the pipeline takes the
copy-until-EOF branch (the source tests `size > 0`, not `size ≥ 0`): a
reader holding two bytes gets both copied and published, not "exactly 0
bytes". -/
theorem c5_safe_write_size_zero_counterexample :
    (safeWriteFile ⟨[], [], 0⟩ "d/f" "t" ⟨[97, 98], false⟩ 0 "").1 =
      .ok () ∧
    lookupFile (safeWriteFile ⟨[], [], 0⟩ "d/f" "t" ⟨[97, 98], false⟩ 0
      "").2 "d/f" = some ⟨[97, 98], 0⟩ := by
  decide

/-- Claim C5 as amended: with `size > 0`, exactly `size` bytes are copied
and the call fails when the stream ends before `size` bytes are read; with
`size ≤ 0` (not `size < 0`), bytes are copied until EOF. -/
theorem c5_safe_write_copy_amended (s : FsState)
    (fileName tmpSuffix : String) (data : ByteReader) (size : Int)
    (md5sum : String) :
    (0 < size → (data.bytes.length : Int) < size →
      (safeWriteFile s fileName tmpSuffix data size md5sum).1 =
        .error (if data.failAfter then .readError else .eof)) ∧
    (0 < size →
      (safeWriteFile s fileName tmpSuffix data size md5sum).1 = .ok () →
      size ≤ (data.bytes.length : Int) ∧
      lookupFile (safeWriteFile s fileName tmpSuffix data size md5sum).2
        fileName = some ⟨data.bytes.take size.toNat, s.now⟩) ∧
    (size ≤ 0 →
      (safeWriteFile s fileName tmpSuffix data size md5sum).1 = .ok () →
      lookupFile (safeWriteFile s fileName tmpSuffix data size md5sum).2
        fileName = some ⟨data.bytes, s.now⟩) := by
  refine ⟨?_, ?_, ?_⟩
  · intro hsz hlen
    have herr : (copyPhase data size).2 =
        some (if data.failAfter then .readError else .eof) := by
      simp [copyPhase, ioCopyN, hsz, hlen]
    rw [safeWriteFile_copy_error _ _ _ _ _ _ _ herr]
  · intro hsz hok
    have hle : size ≤ (data.bytes.length : Int) := by
      by_contra hlt
      push_neg at hlt
      have herr : (copyPhase data size).2 =
          some (if data.failAfter then .readError else .eof) := by
        simp [copyPhase, ioCopyN, hsz, hlt]
      rw [safeWriteFile_copy_error _ _ _ _ _ _ _ herr] at hok
      exact Except.noConfusion hok
    have herr : copyPhase data size = (data.bytes.take size.toNat, none) := by
      simp [copyPhase, ioCopyN, hsz]
      omega
    refine ⟨hle, ?_⟩
    by_cases hmd5 : md5sum ≠ "" ∧ isMD5SumEqual md5sum
        (hexEncode (md5Bytes (copyPhase data size).1)) = false
    · rw [safeWriteFile_bad_digest _ _ _ _ _ _ (by rw [herr]) hmd5.1
        hmd5.2] at hok
      exact Except.noConfusion hok
    · rw [safeWriteFile_commit _ _ _ _ _ _ (by rw [herr]) hmd5, herr]
      simp [lookupFile_setFileRec]
  · intro hsz hok
    have hns : ¬ (0 : Int) < size := by omega
    by_cases hfail : data.failAfter
    · have herr : (copyPhase data size).2 = some .readError := by
        simp [copyPhase, ioCopy, hns, hfail]
      rw [safeWriteFile_copy_error _ _ _ _ _ _ _ herr] at hok
      exact Except.noConfusion hok
    · have herr : copyPhase data size = (data.bytes, none) := by
        simp [copyPhase, ioCopy, hns, hfail]
      by_cases hmd5 : md5sum ≠ "" ∧ isMD5SumEqual md5sum
          (hexEncode (md5Bytes (copyPhase data size).1)) = false
      · rw [safeWriteFile_bad_digest _ _ _ _ _ _ (by rw [herr]) hmd5.1
          hmd5.2] at hok
        exact Except.noConfusion hok
      · rw [safeWriteFile_commit _ _ _ _ _ _ (by rw [herr]) hmd5, herr]
        simp [lookupFile_setFileRec]

/-- Witness for C5 (amended): a two-byte stream against `size = 3` fails
with EOF, and a two-byte stream against `size = 1` publishes exactly the
first byte. -/
theorem c5_safe_write_copy_amended_witness :
    (safeWriteFile ⟨[], [], 0⟩ "d/f" "t" ⟨[7, 8], false⟩ 3 "").1 =
      .error .eof ∧
    lookupFile (safeWriteFile ⟨[], [], 0⟩ "d/f" "t" ⟨[7, 8], false⟩ 1
      "").2 "d/f" = some ⟨[7], 0⟩ := by
  constructor
  · exact (c5_safe_write_copy_amended ⟨[], [], 0⟩ "d/f" "t" ⟨[7, 8], false⟩
      3 "").1 (by decide) (by decide)
  · exact ((c5_safe_write_copy_amended ⟨[], [], 0⟩ "d/f" "t" ⟨[7, 8], false⟩
      1 "").2.1 (by decide) (by decide)).2

/-- Claim C1: when the non-empty expected MD5 differs from the MD5
computed over the streamed bytes, `safeWriteFile` discards the temp file
and fails with `BadDigest{expected, got}` leaving every path (in
particular the target) unchanged; moreover on EVERY exit path no temp
file survives, and the target either keeps its old content (all error
exits) or holds exactly the streamed bytes, whose digest passed the check
(the success exit). -/
theorem c1_safe_write_bad_digest_atomic (s : FsState)
    (fileName tmpSuffix : String) (data : ByteReader) (size : Int)
    (md5sum : String)
    (hfresh : lookupFile s (tempPath fileName tmpSuffix) = none) :
    ((copyPhase data size).2 = none → md5sum ≠ "" →
      isMD5SumEqual md5sum
        (hexEncode (md5Bytes (copyPhase data size).1)) = false →
      (safeWriteFile s fileName tmpSuffix data size md5sum).1 =
        .error (.badDigest md5sum
          (hexEncode (md5Bytes (copyPhase data size).1)))) ∧
    (∀ e, (safeWriteFile s fileName tmpSuffix data size md5sum).1 =
        .error e →
      ∀ p, lookupFile (safeWriteFile s fileName tmpSuffix data size
        md5sum).2 p = lookupFile s p) ∧
    lookupFile (safeWriteFile s fileName tmpSuffix data size md5sum).2
      (tempPath fileName tmpSuffix) = none ∧
    ((safeWriteFile s fileName tmpSuffix data size md5sum).1 = .ok () →
      lookupFile (safeWriteFile s fileName tmpSuffix data size md5sum).2
        fileName = some ⟨(copyPhase data size).1, s.now⟩ ∧
      (md5sum ≠ "" → isMD5SumEqual md5sum
        (hexEncode (md5Bytes (copyPhase data size).1)) = true) ∧
      (∀ p, p ≠ fileName →
        lookupFile (safeWriteFile s fileName tmpSuffix data size md5sum).2
          p = lookupFile s p)) := by
  rcases hcp : (copyPhase data size).2 with _ | e
  · by_cases hmd5 : md5sum ≠ "" ∧ isMD5SumEqual md5sum
        (hexEncode (md5Bytes (copyPhase data size).1)) = false
    · have hr := safeWriteFile_bad_digest s fileName tmpSuffix data size
        md5sum hcp hmd5.1 hmd5.2
      refine ⟨?_, ?_, ?_, ?_⟩
      · intro _ _ _
        rw [hr]
      · intro e' _ p
        rw [hr]
        by_cases hp : p = tempPath fileName tmpSuffix
        · subst hp
          rw [lookup_discard, if_pos rfl]
          exact hfresh.symm
        · rw [lookup_discard, if_neg hp]
      · rw [hr]
        exact lookup_discard s _ _ _ ▸ if_pos rfl
      · intro hok
        rw [hr] at hok
        exact Except.noConfusion hok
    · have hr := safeWriteFile_commit s fileName tmpSuffix data size md5sum
        hcp hmd5
      refine ⟨?_, ?_, ?_, ?_⟩
      · intro _ h2 h3
        exact absurd ⟨h2, h3⟩ hmd5
      · intro e' he
        rw [hr] at he
        exact Except.noConfusion he
      · rw [hr]
        rw [lookupFile_setFileRec, if_neg (tempPath_ne fileName tmpSuffix),
          lookupFile_removeFileEntry, if_pos rfl]
      · intro _
        rw [hr]
        refine ⟨?_, ?_, ?_⟩
        · rw [lookupFile_setFileRec, if_pos rfl]
        · intro hne
          rcases hb : isMD5SumEqual md5sum
              (hexEncode (md5Bytes (copyPhase data size).1)) with _ | _
          · exact absurd ⟨hne, hb⟩ hmd5
          · rfl
        · intro p hp
          by_cases hptmp : p = tempPath fileName tmpSuffix
          · subst hptmp
            rw [lookupFile_setFileRec, if_neg hp,
              lookupFile_removeFileEntry, if_pos rfl]
            exact hfresh.symm
          · rw [lookupFile_setFileRec, if_neg hp,
              lookupFile_removeFileEntry, if_neg hptmp, lookupFile_setFile,
              if_neg hptmp, lookupFile_setFile, if_neg hptmp]
  · have hr := safeWriteFile_copy_error s fileName tmpSuffix data size
      md5sum e hcp
    refine ⟨?_, ?_, ?_, ?_⟩
    · intro h1
      exact Option.noConfusion h1
    · intro e' _ p
      rw [hr]
      by_cases hp : p = tempPath fileName tmpSuffix
      · subst hp
        rw [lookup_discard, if_pos rfl]
        exact hfresh.symm
      · rw [lookup_discard, if_neg hp]
    · rw [hr]
      exact lookup_discard s _ _ _ ▸ if_pos rfl
    · intro hok
      rw [hr] at hok
      exact Except.noConfusion hok

/-- Witness for C1: streaming "hi" with expected MD5 "00" fails with
`BadDigest` carrying the expected and the computed sums, and the computed
sum is the real MD5 of "hi". -/
theorem c1_safe_write_bad_digest_atomic_witness :
    (safeWriteFile ⟨[], [], 0⟩ "d/f" "t" ⟨[104, 105], false⟩ (-1) "00").1 =
      .error (.badDigest "00"
        (hexEncode (md5Bytes (copyPhase ⟨[104, 105], false⟩ (-1)).1))) ∧
    hexEncode (md5Bytes (copyPhase ⟨[104, 105], false⟩ (-1)).1) =
      "49f68a5c8493ec2c0bf489821c21fc3b" :=
  ⟨(c1_safe_write_bad_digest_atomic ⟨[], [], 0⟩ "d/f" "t"
      ⟨[104, 105], false⟩ (-1) "00" (by decide)).1 (by decide) (by decide)
      (by decide),
   by decide⟩

/-- Claim C7: `PutObjectPart` fails with `InvalidUploadID` when the
upload-ID reservation file does not exist, rejects every
`partNumber < 1` or `> 10000`, and on success returns the supplied
`md5Hex` as the part's ETag. -/
theorem c7_put_object_part (fs : Filesystem) (s : FsState)
    (bucket object uploadID : String) (partNumber size : Int)
    (data : ByteReader) (md5Hex tmpSuffix bucket' : String)
    (hargs : checkMultipartArgs fs s bucket object = .ok bucket') :
    (isUploadIDExist fs s bucket' object uploadID = false →
      (putObjectPart fs s bucket object uploadID partNumber size data md5Hex
        tmpSuffix).1 = .error (.invalidUploadID uploadID)) ∧
    (isUploadIDExist fs s bucket' object uploadID = true → partNumber ≤ 0 →
      (putObjectPart fs s bucket object uploadID partNumber size data md5Hex
        tmpSuffix).1 =
        .error (.goError "invalid part id, cannot be zero or less than zero")) ∧
    (isUploadIDExist fs s bucket' object uploadID = true →
      partNumber > 10000 →
      (putObjectPart fs s bucket object uploadID partNumber size data md5Hex
        tmpSuffix).1 =
        .error (.goError "invalid part id, should be not more than 10000")) ∧
    (∀ etag, (putObjectPart fs s bucket object uploadID partNumber size data
      md5Hex tmpSuffix).1 = .ok etag → etag = md5Hex) := by
  refine ⟨?_, ?_, ?_, ?_⟩
  · intro hup
    simp only [putObjectPart, hargs, hup]
    simp
  · intro hup hpn
    simp only [putObjectPart, hargs, hup]
    simp [hpn]
  · intro hup hpn
    have hpn0 : ¬ partNumber ≤ 0 := by omega
    simp only [putObjectPart, hargs, hup]
    simp [hpn0, hpn]
  · intro etag h
    simp only [putObjectPart, hargs] at h
    split at h
    · simp at h
    · split at h
      · simp at h
      · split at h
        · simp at h
        · split at h
          · simp at h
          · split at h
            · simp at h
            · simp at h
              exact h.symm

/-- Witness for C7: a valid bucket and object whose metadir holds no
reservation file for upload-ID `u` makes `PutObjectPart` fail with
`InvalidUploadID u`. -/
theorem c7_put_object_part_witness :
    (putObjectPart ⟨"root", false⟩
      ⟨[], ["root", "root/bucket", "root/.minio", "root/.minio/bucket",
            "root/.minio/bucket/obj"], 0⟩
      "bucket" "obj" "u" 1 2 ⟨[1, 2], false⟩ "aa" "t").1 =
      .error (.invalidUploadID "u") :=
  (c7_put_object_part ⟨"root", false⟩
    ⟨[], ["root", "root/bucket", "root/.minio", "root/.minio/bucket",
          "root/.minio/bucket/obj"], 0⟩
    "bucket" "obj" "u" 1 2 ⟨[1, 2], false⟩ "aa" "t" "bucket"
    (by decide)).1 (by decide)

/-- Helper: a successful checksum collection returns exactly the
quote-trimmed ETags in client order. -/
theorem collectPartMd5s_ok (s : FsState) (dir uploadID : String) :
    ∀ (parts : List completePart) (l : List String),
      collectPartMd5s s dir uploadID parts = .ok l →
      l = parts.map (fun part => trimQuotes part.etag) := by
  intro parts
  induction parts with
  | nil =>
    intro l h
    simp only [collectPartMd5s] at h
    rw [Except.ok.injEq] at h
    subst h
    simp
  | cons part rest ih =>
    intro l h
    simp only [collectPartMd5s] at h
    split at h
    · split at h
      · rename_i l' hrec
        rw [Except.ok.injEq] at h
        subst h
        simp [ih l' hrec]
      · exact Except.noConfusion h
    · exact Except.noConfusion h

/-- Helper: the accumulating loop of `makeS3MD5` decodes every checksum
and appends the bytes in order. -/
theorem makeS3MD5Go_ok : ∀ (l : List String) (acc out : List Nat),
    makeS3MD5Go l acc = .ok out →
    ∃ bss : List (List Nat), l.map hexDecode = bss.map some ∧
      out = acc ++ bss.flatten := by
  intro l
  induction l with
  | nil =>
    intro acc out h
    refine ⟨[], by simp, ?_⟩
    simp only [makeS3MD5Go] at h
    rw [Except.ok.injEq] at h
    subst h
    simp
  | cons x rest ih =>
    intro acc out h
    simp only [makeS3MD5Go] at h
    split at h
    · exact Except.noConfusion h
    · rename_i bs hdec
      obtain ⟨bss, hmap, hout⟩ := ih (acc ++ bs) out h
      exact ⟨bs :: bss, by simp [hdec, hmap],
        by simp [hout, List.append_assoc]⟩

/-- Helper: a successful `makeS3MD5` is the S3 multipart ETag formula over
the decoded checksums. -/
theorem makeS3MD5_ok (l : List String) (v : String)
    (h : makeS3MD5 l = .ok v) :
    ∃ bss : List (List Nat), l.map hexDecode = bss.map some ∧
      v = hexEncode (md5Bytes bss.flatten) ++ "-" ++ toString l.length := by
  simp only [makeS3MD5] at h
  split at h
  · exact Except.noConfusion h
  · rename_i bytes hgo
    obtain ⟨bss, hmap, hout⟩ := makeS3MD5Go_ok l [] bytes hgo
    rw [Except.ok.injEq] at h
    subst h
    exact ⟨bss, hmap, by simp [hout]⟩

/-- Claim C2: every successful `CompleteMultipartUpload` over parts in the
client-specified order returns an object whose `MD5Sum` is the lowercase
hex MD5 of the concatenation of the decoded MD5 bytes of each part's ETag,
followed by '-' and the part count (stated for ETags carrying no
surrounding quotes, which the source strips before decoding). -/
theorem c2_complete_multipart_etag (fs : Filesystem) (s : FsState)
    (bucket object uploadID : String) (parts : List completePart)
    (tmpSuffix : String) (info : ObjectInfo) (s' : FsState)
    (h : completeMultipartUpload fs s bucket object uploadID parts
      tmpSuffix = (.ok info, s'))
    (hq : ∀ part ∈ parts, trimQuotes part.etag = part.etag) :
    ∃ bss : List (List Nat),
      parts.map (fun part => hexDecode part.etag) = bss.map some ∧
      info.md5Sum = hexEncode (md5Bytes bss.flatten) ++ "-" ++
        toString parts.length := by
  simp only [completeMultipartUpload] at h
  split at h
  · simp at h
  · rename_i bucket1 hc
    split at h
    · simp at h
    · split at h
      · simp at h
      · split at h
        · simp at h
        · rename_i md5Sums hcol
          split at h
          · simp at h
          · rename_i s3MD5 hmk
            have hsums := collectPartMd5s_ok _ _ _ _ _ hcol
            have hsums' : md5Sums = parts.map (fun part => part.etag) := by
              rw [hsums]
              exact List.map_congr_left (fun part hp => hq part hp)
            obtain ⟨bss, hmap, hval⟩ := makeS3MD5_ok _ _ hmk
            have hdec : parts.map (fun part => hexDecode part.etag) =
                bss.map some := by
              rw [hsums'] at hmap
              rw [← hmap, List.map_map]
              rfl
            have hlen : md5Sums.length = parts.length := by
              rw [hsums']
              exact List.length_map _ _
            refine ⟨bss, hdec, ?_⟩
            rw [hlen] at hval
            have hmd5 : info.md5Sum = s3MD5 := by
              clear hdec hmap hval hsums hsums' hlen hcol hmk
              repeat' split at h
              all_goals
                rw [Prod.mk.injEq] at h
                obtain ⟨h1, h2⟩ := h
                first
                | exact Except.noConfusion h1
                | (rw [Except.ok.injEq] at h1
                   subst h1
                   rfl)
            rw [hmd5, hval]

/-- Witness for C2: completing two parts with ETags `aabb` and `ccdd`
publishes an object whose ETag is `hex(MD5(aa bb cc dd)) ++ "-2"`. -/
theorem c2_complete_multipart_etag_witness :
    ∃ bss : List (List Nat),
      ([⟨1, "aabb"⟩, ⟨2, "ccdd"⟩] : List completePart).map
        (fun part => hexDecode part.etag) = bss.map some ∧
      ({ bucket := "bucket", name := "obj", modifiedTime := 7, size := 2,
         contentType := "application/octet-stream",
         md5Sum := "ca6ffbf95b47864fd4e73f2601326304-2" } :
           ObjectInfo).md5Sum =
        hexEncode (md5Bytes bss.flatten) ++ "-" ++
          toString ([⟨1, "aabb"⟩, ⟨2, "ccdd"⟩] : List completePart).length :=
  c2_complete_multipart_etag ⟨"root", false⟩
    ⟨[("root/.minio/bucket/obj/u.uploadid", ⟨[], 0⟩),
      ("root/.minio/bucket/obj/u.1.aabb", ⟨[1], 1⟩),
      ("root/.minio/bucket/obj/u.2.ccdd", ⟨[2], 2⟩)],
     ["root", "root/bucket", "root/.minio", "root/.minio/bucket",
      "root/.minio/bucket/obj"], 7⟩
    "bucket" "obj" "u" [⟨1, "aabb"⟩, ⟨2, "ccdd"⟩] "t"
    { bucket := "bucket", name := "obj", modifiedTime := 7, size := 2,
      contentType := "application/octet-stream",
      md5Sum := "ca6ffbf95b47864fd4e73f2601326304-2" }
    ⟨[("root/bucket/obj", ⟨[1, 2], 7⟩)],
     [".", "root", "root/bucket", "root/.minio", "root/.minio/bucket"], 7⟩
    (by decide) (by decide)

/-- Claim C3, counterexample.  With the single Allow statement whose action
pattern is the literal regex `s3:GetObject`, the evaluator allows the
action `xs3:GetObject` (because `regexp.MatchString` matches unanchored),
whereas under the claim's full-match reading no statement matches and the
result would be deny. -/
theorem c3_policy_eval_counterexample :
    bucketPolicyEvalStatements "xs3:GetObject" "/mybucket/a" []
      [{ effect := "Allow", actions := [strRegex "s3:GetObject"],
         resources := [Regex.cat (strRegex "mybucket/") (.star .dot)],
         conditions := [] }] = true ∧
    specEvalFullMatch "xs3:GetObject" "/mybucket/a" []
      [{ effect := "Allow", actions := [strRegex "s3:GetObject"],
         resources := [Regex.cat (strRegex "mybucket/") (.star .dot)],
         conditions := [] }] = false := by
  decide

/-- Claim C3 as amended: policy evaluation scans the statements in order
and returns allow iff the first statement whose actions, resources
(matched as UNANCHORED regex match, i.e. the pattern may match any
substring, the resource taken after stripping a leading '/') and
conditions all match has Effect "Allow"; if no statement matches, deny. -/
theorem c3_policy_eval_first_match (action resource : String)
    (conditions : List (String × String)) (statements : List policyStatement) :
    bucketPolicyEvalStatements action resource conditions statements =
      specEvalFirstMatch action resource conditions statements := by
  induction statements with
  | nil => rfl
  | cons st rest ih =>
    by_cases h : bucketPolicyMatchStatement action resource conditions st = true
    · simp [bucketPolicyEvalStatements, specEvalFirstMatch, List.find?, h]
    · simp only [Bool.not_eq_true] at h
      simp [bucketPolicyEvalStatements, specEvalFirstMatch, List.find?, h, ih]

/-- Claim C4 is right and the code is wrong: the handler's pre-parse size
check accepts a 20481-byte policy document (Content-Length 20481,
non-chunked), because the constant `maxAccessPolicySize` is
`20 * 1024 * 1024` = 20 MiB even though its own comment says "20KiB"; a
document is rejected with `EntityTooLarge` only above 20971520 bytes. -/
theorem c4_policy_size_limit_bug :
    putBucketPolicySizeCheck [] 20481 = none ∧
      maxAccessPolicySize = 20971520 ∧
      putBucketPolicySizeCheck [] 20971521 = some .errEntityTooLarge := by
  decide

/-- Claim C6, counterexample.  A `StringEquals` condition listing only
`s3:prefix` (equal to the request's `prefix`) fails to match under the
code whenever the request's `max-keys` value is non-empty, because the
code always also compares `s3:max-keys` (absent key = `""`); under the
claim's "every key listed" reading the condition matches. -/
theorem c6_condition_match_counterexample :
    bucketPolicyConditionMatch [("prefix", "a"), ("max-keys", "100")]
      { effect := "Allow", actions := [], resources := [],
        conditions := [("StringEquals", [("s3:prefix", "a")])] } = false ∧
    specConditionMatch [("prefix", "a"), ("max-keys", "100")]
      { effect := "Allow", actions := [], resources := [],
        conditions := [("StringEquals", [("s3:prefix", "a")])] } = true := by
  decide

/-- Claim C6 as amended: a `StringEquals` condition matches iff the
condition's `s3:prefix` value (`""` when absent) equals the request's
`prefix` value and the condition's `s3:max-keys` value equals the
request's `max-keys` value; `StringNotEquals` matches iff both differ;
condition keys other than these two are ignored. -/
theorem c6_condition_match_amended (conditions : List (String × String))
    (statement : policyStatement) :
    bucketPolicyConditionMatch conditions statement =
      amendedConditionMatch conditions statement :=
  conditionLoop_eq_all conditions statement.conditions

/-- Claim C9: condition operators other than `StringEquals` and
`StringNotEquals` are ignored — a statement whose conditions use only
unrecognized operator names has its conditions treated as matching, so
the statement matches exactly when its actions and resources match,
regardless of the request's condition values. -/
theorem c9_unknown_condition_ops_ignored (action resource : String)
    (conditions : List (String × String)) (statement : policyStatement)
    (h : ∀ oc ∈ statement.conditions,
      oc.1 ≠ "StringEquals" ∧ oc.1 ≠ "StringNotEquals") :
    bucketPolicyConditionMatch conditions statement = true ∧
      bucketPolicyMatchStatement action resource conditions statement =
        (bucketPolicyActionMatch action statement &&
          bucketPolicyResourceMatch resource statement) := by
  have hcond : bucketPolicyConditionMatch conditions statement = true := by
    unfold bucketPolicyConditionMatch
    rw [conditionLoop_eq_all, List.all_eq_true]
    intro oc hoc
    obtain ⟨h1, h2⟩ := h oc hoc
    simp [h1, h2]
  refine ⟨hcond, ?_⟩
  unfold bucketPolicyMatchStatement
  rw [hcond]
  simp

/-- Witness for C9: a statement whose only condition operator is
`NumericLessThan` has matching conditions for a request carrying condition
values. -/
theorem c9_unknown_condition_ops_ignored_witness :
    bucketPolicyConditionMatch [("prefix", "x"), ("max-keys", "10")]
      { effect := "Deny", actions := [strRegex "s3:GetObject"],
        resources := [strRegex "b/.*"],
        conditions := [("NumericLessThan", [("s3:max-keys", "10")])] } =
        true ∧
      bucketPolicyMatchStatement "s3:GetObject" "/b/o"
        [("prefix", "x"), ("max-keys", "10")]
        { effect := "Deny", actions := [strRegex "s3:GetObject"],
          resources := [strRegex "b/.*"],
          conditions := [("NumericLessThan", [("s3:max-keys", "10")])] } =
        (bucketPolicyActionMatch "s3:GetObject"
          { effect := "Deny", actions := [strRegex "s3:GetObject"],
            resources := [strRegex "b/.*"],
            conditions := [("NumericLessThan", [("s3:max-keys", "10")])] } &&
          bucketPolicyResourceMatch "/b/o"
            { effect := "Deny", actions := [strRegex "s3:GetObject"],
              resources := [strRegex "b/.*"],
              conditions :=
                [("NumericLessThan", [("s3:max-keys", "10")])] }) :=
  c9_unknown_condition_ops_ignored "s3:GetObject" "/b/o"
    [("prefix", "x"), ("max-keys", "10")]
    { effect := "Deny", actions := [strRegex "s3:GetObject"],
      resources := [strRegex "b/.*"],
      conditions := [("NumericLessThan", [("s3:max-keys", "10")])] }
    (by decide)

end Minio


